import Mathlib

/-!
# PolyHook 2 — x64 detour engine (`sources/x64Detour.cpp`)

A shallow embedding of `PLH::x64Detour::hook` and `PLH::x64Detour::makeTrampoline`.

* Machine integers are natural numbers with explicit truncation (`u8`, `u16`, `u64`).
* The members of the detour object are the record `Detour`; everything else the code
  touches (memory bytes, the error log, the heap, page protections, the function-local
  `static` of the `calcJmpHolder` lambda, and the internal state of the collaborators such
  as the disassembler's branch map) is the record `Process`.
* Functions that `x64Detour.cpp` calls but does not define (`disassemble`, `followJmp`,
  `calcNearestSz`, `expandProlSelfJmps`, `buildRelocationList`, `operator new[]`,
  `makex64PreferredJump`, `makex64MinimumJump`, `writeEncoding`, `instsToStr`) are the
  fields of the record `Collab`; the analysis functions may read and update the
  collaborator state `Ω`, and only `writeEncoding` and the relocation write memory.
* The `Instruction` record, `calcInstsSz` and the jump-table construction of
  `relocateTrampoline` are not in `x64Detour.cpp` either; they follow the specification.
* `assert` failures and `front()` on an empty vector end the run: the functions return
  `none`. The `do … while` loop of `makeTrampoline` takes one unit of fuel per iteration.
-/

namespace PLH

/-! ## Machine integers -/

/-- Truncation to `uint8_t`. -/
def u8 (x : Nat) : Nat := x % 2 ^ 8

/-- Truncation to `uint16_t`. -/
def u16 (x : Nat) : Nat := x % 2 ^ 16

/-- Truncation to `uint64_t`. -/
def u64 (x : Nat) : Nat := x % 2 ^ 64

/-- Subtraction of `uint64_t` values (wraps around). -/
def sub64 (a b : Nat) : Nat := (a % 2 ^ 64 + 2 ^ 64 - b % 2 ^ 64) % 2 ^ 64

/-- Reinterpretation of a `uint64_t` as `int64_t`. -/
def toInt64 (x : Nat) : Int :=
  if x % 2 ^ 64 < 2 ^ 63 then ((x % 2 ^ 64 : Nat) : Int) else ((x % 2 ^ 64 : Nat) : Int) - 2 ^ 64

/-! ## Data model -/

/-- Modelled from the spec: the `Instruction` class is declared outside `x64Detour.cpp`;
the fields are those of the spec's data model (address, byte length, relative-branch
flag, resolved branch target, own-address reference flag). -/
structure Instruction where
  address : Nat
  size : Nat
  isRelativeBranch : Bool
  branchTargetAddress : Option Nat
  referencesOwnAddress : Bool
deriving DecidableEq

/-- The type `PLH::insts_t`: a vector of instructions. -/
abbrev insts_t := List Instruction

/-- Severity of an error-log message (`ErrorLevel::INFO`, `ErrorLevel::SEV`). -/
inductive ErrorLevel where
  | INFO
  | SEV
deriving DecidableEq

/-- Byte-addressed memory. -/
abbrev Mem := Nat → Nat

/-- A set of `ProtFlag`s. -/
structure ProtFlag where
  R : Bool
  W : Bool
  X : Bool
deriving DecidableEq

/-- One construction of a `MemoryProtector` (address, length, flags, restore on scope exit). -/
structure ProtEvent where
  address : Nat
  length : Nat
  flags : ProtFlag
  restoreOnExit : Bool
deriving DecidableEq

/-- One heap operation: `new unsigned char[size]` returning `address`, or `delete[]`. -/
inductive HeapEvent where
  | alloc (address size : Nat)
  | free (address : Nat)
deriving DecidableEq

/-- One call of `makex64MinimumJump(address, destination, destHolder)`. -/
structure MinJmpCall where
  address : Nat
  destination : Nat
  destHolder : Nat
deriving DecidableEq

/-- Everything outside the detour object: memory, the collaborators' internal state,
and the logs of the effects the code performs (newest entry first). `captureAddr` is the
function-local `static` of the `calcJmpHolder` lambda; `none` until its first call. -/
structure Process (Ω : Type) where
  mem : Mem
  env : Ω
  errorLog : List (String × ErrorLevel)
  heapLog : List HeapEvent
  protLog : List ProtEvent
  minJmpLog : List MinJmpCall
  captureAddr : Option Nat

/-- The members of `PLH::x64Detour` (inherited from `PLH::Detour`); `userTrampVar` is the
content of the caller's slot `*m_userTrampVar`. -/
structure Detour where
  m_fnAddress : Nat
  m_fnCallback : Nat
  m_trampoline : Nat
  m_trampolineSz : Nat
  m_originalInsts : insts_t
  m_hooked : Bool
  userTrampVar : Nat

/-- The functions `x64Detour.cpp` calls and does not define. By-reference output
arguments are returned next to the result; every call may update the collaborator
state `Ω`.

* `disassemble env mem start addr end`
* `followJmp env mem insts` returns the result and the rewritten `insts`
* `calcNearestSz env insts minSz roundedSz` returns the optional region and `roundedSz`
* `expandProlSelfJmps env prologue insts minProlSz roundProlSz` returns the result,
  `prologue` and `roundProlSz` (the spec: "mutates region/roundedSize in place")
* `alloc env size` is `new unsigned char[size]`
* `buildRelocationList env prologue prolSz delta instsNeedingEntry instsNeedingReloc`
  returns the two lists
* `relocateInsts` is the part of `relocateTrampoline` that moves the prologue's
  instructions into the trampoline. -/
structure Collab (Ω : Type) where
  disassemble : Ω → Mem → Nat → Nat → Nat → insts_t × Ω
  followJmp : Ω → Mem → insts_t → Bool × insts_t × Ω
  calcNearestSz : Ω → insts_t → Nat → Nat → Option insts_t × Nat × Ω
  expandProlSelfJmps : Ω → insts_t → insts_t → Nat → Nat → Bool × insts_t × Nat × Ω
  instsToStr : insts_t → String
  alloc : Ω → Nat → Nat × Ω
  buildRelocationList : Ω → insts_t → Nat → Int → insts_t → insts_t → insts_t × insts_t × Ω
  makex64PreferredJump : Nat → Nat → insts_t
  makex64MinimumJump : Nat → Nat → Nat → insts_t
  writeEncoding : insts_t → Mem → Mem
  relocateInsts : insts_t → Int → insts_t → insts_t → Mem → Mem

/-! ## Primitive effects -/

/-- The call `ErrorLog::singleton().push(msg, level)`. -/
def push {Ω : Type} (msg : String) (level : ErrorLevel) (p : Process Ω) : Process Ω :=
  { p with errorLog := (msg, level) :: p.errorLog }

/-- Construction of a `MemoryProtector`. -/
def protect {Ω : Type} (address length : Nat) (flags : ProtFlag) (restoreOnExit : Bool)
    (p : Process Ω) : Process Ω :=
  { p with protLog := ⟨address, length, flags, restoreOnExit⟩ :: p.protLog }

/-- The call `std::memset(dst, val, n)`. -/
def memset (dst val n : Nat) (m : Mem) : Mem :=
  fun a => if dst ≤ a ∧ a < dst + n then val else m a

/-- The flags `ProtFlag::R | ProtFlag::W | ProtFlag::X`. -/
def rwx : ProtFlag := ⟨true, true, true⟩

/-- Number of `SEV` messages in an error log. -/
def sevCount (log : List (String × ErrorLevel)) : Nat :=
  (log.filter (fun e => e.2 = ErrorLevel.SEV)).length

/-! ## `x64Detour.cpp` -/

/-- The method `x64Detour::getMinJmpSize`. -/
def getMinJmpSize : Nat := 6

/-- The method `x64Detour::getPrefJmpSize`. -/
def getPrefJmpSize : Nat := 16

/-- The constant `destHldrSz` of `makeTrampoline`. -/
def destHldrSz : Nat := 8

/-- Modelled from the spec: `calcInstsSz` is defined outside `x64Detour.cpp`; it is the
spec's "size(relocated prologue)", the sum of the instructions' byte lengths, stored by
`makeTrampoline` in a `uint16_t`. -/
def calcInstsSz (insts : insts_t) : Nat :=
  u16 ((insts.map Instruction.size).sum)

/-- The lambda `calcJmpHolder` of `makeTrampoline`, which captures `jmpHolderCurAddr` by
value: its `static` is initialised from the capture on the first call in the process,
then every call moves it down one slot and returns it. -/
def calcJmpHolder {Ω : Type} (jmpHolderCurAddr : Nat) (p : Process Ω) : Nat × Process Ω :=
  let captureAddr := match p.captureAddr with
    | none => jmpHolderCurAddr
    | some a => a
  let captureAddr := sub64 captureAddr destHldrSz
  (captureAddr, { p with captureAddr := some captureAddr })

/-- Result of the allocation loop of `makeTrampoline`: the locals it leaves, the updated
object and process, and the number of iterations run. -/
structure LoopOut (Ω : Type) where
  neededEntryCount : Nat
  instsNeedingEntry : insts_t
  instsNeedingReloc : insts_t
  d : Detour
  p : Process Ω
  iters : Nat

/-- The `do … while` loop of `makeTrampoline` (lines 116–130). `fuel` bounds the number of
iterations; `iters` counts those already run. -/
def allocLoop {Ω : Type} (c : Collab Ω) (prologue : insts_t) (prolStart prolSz : Nat) :
    Nat → Nat → Nat → insts_t → insts_t → Detour → Process Ω → Option (LoopOut Ω)
  | 0, _, _, _, _, _, _ => none
  | fuel + 1, iters, neededEntryCount, instsNeedingEntry, instsNeedingReloc, d, p =>
    let neededEntryCount :=
      if d.m_trampoline ≠ 0 then u8 instsNeedingEntry.length else neededEntryCount
    let p := if d.m_trampoline ≠ 0 then
      { p with heapLog := HeapEvent.free d.m_trampoline :: p.heapLog } else p
    let sz := u16 (prolSz + (getMinJmpSize + destHldrSz)
      + (getMinJmpSize + destHldrSz) * neededEntryCount)
    let a := c.alloc p.env sz
    let d := { d with m_trampolineSz := sz, m_trampoline := a.1 }
    let p := { p with env := a.2, heapLog := HeapEvent.alloc a.1 sz :: p.heapLog }
    let delta := toInt64 (sub64 d.m_trampoline prolStart)
    let b := c.buildRelocationList p.env prologue prolSz delta instsNeedingEntry instsNeedingReloc
    let p := { p with env := b.2.2 }
    if b.1.length > neededEntryCount then
      allocLoop c prologue prolStart prolSz fuel (iters + 1) neededEntryCount b.1 b.2.1 d p
    else
      some ⟨neededEntryCount, b.1, b.2.1, d, p, iters + 1⟩

/-- Modelled from the spec: `relocateTrampoline` is defined outside `x64Detour.cpp`. This
is its jump-table construction as the spec describes it: one entry per "needs entry"
instruction, built by `makeJmpFn` (that is `makex64MinimumJump` with the holder taken from
`calcJmpHolder`), holding the instruction's branch target, written to memory; successive
entries are `jmpSz` bytes apart starting at `jmpTblStart`. -/
def jmpTblEntries {Ω : Type} (c : Collab Ω) (jmpHolderCurAddr jmpSz : Nat) :
    insts_t → Nat → Process Ω → insts_t × Process Ω
  | [], _, p => ([], p)
  | inst :: rest, jmpTblCurAddr, p =>
    let h := calcJmpHolder jmpHolderCurAddr p
    let dest := inst.branchTargetAddress.getD 0
    let entry := c.makex64MinimumJump jmpTblCurAddr dest h.1
    let p := { h.2 with
      minJmpLog := ⟨jmpTblCurAddr, dest, h.1⟩ :: h.2.minJmpLog
      mem := c.writeEncoding entry h.2.mem }
    let r := jmpTblEntries c jmpHolderCurAddr jmpSz rest (u64 (jmpTblCurAddr + jmpSz)) p
    (entry ++ r.1, r.2)

/-- Modelled from the spec: `relocateTrampoline` is defined outside `x64Detour.cpp`; it
builds the jump table (`jmpTblEntries`) and moves the prologue's instructions into the
trampoline (`Collab.relocateInsts`), returning the jump-table entries. -/
def relocateTrampoline {Ω : Type} (c : Collab Ω) (prologue : insts_t) (jmpTblStart : Nat)
    (delta : Int) (jmpSz jmpHolderCurAddr : Nat) (instsNeedingReloc instsNeedingEntry : insts_t)
    (p : Process Ω) : insts_t × Process Ω :=
  let r := jmpTblEntries c jmpHolderCurAddr jmpSz instsNeedingEntry jmpTblStart p
  (r.1, { r.2 with
    mem := c.relocateInsts prologue delta instsNeedingReloc instsNeedingEntry r.2.mem })

/-- Lines 132–160 of `x64Detour::makeTrampoline`, after the allocation loop: protect the
trampoline, write the jump back to the original function, build the jump table. -/
def finishTrampoline {Ω : Type} (c : Collab Ω) (prologue : insts_t) (front : Instruction)
    (prolStart prolSz : Nat) (out : LoopOut Ω) : Option insts_t × Detour × Process Ω :=
  let d := out.d
  let p := out.p
  let delta := toInt64 (sub64 d.m_trampoline prolStart)
  let p := protect d.m_trampoline d.m_trampolineSz rwx false p
  let jmpToProlAddr := u64 (d.m_trampoline + prolSz)
  let jmpHolderCurAddr := sub64 (u64 (d.m_trampoline + d.m_trampolineSz)) destHldrSz
  let dest := u64 (front.address + prolSz)
  let jmpToProl := c.makex64MinimumJump jmpToProlAddr dest jmpHolderCurAddr
  let p := { p with minJmpLog := ⟨jmpToProlAddr, dest, jmpHolderCurAddr⟩ :: p.minJmpLog }
  let p := push ("Jmp To Prol:\n" ++ c.instsToStr jmpToProl ++ "\n") ErrorLevel.INFO p
  let p := { p with mem := c.writeEncoding jmpToProl p.mem }
  let jmpTblStart := u64 (jmpToProlAddr + getMinJmpSize)
  let r := relocateTrampoline c prologue jmpTblStart delta getMinJmpSize jmpHolderCurAddr
    out.instsNeedingReloc out.instsNeedingEntry p
  if r.1.length > 0 then (some r.1, d, r.2) else (none, d, r.2)

/-- The method `x64Detour::makeTrampoline` (lines 104–161): the assertion and the locals
of lines 105–108, the allocation loop, then `finishTrampoline`. -/
def makeTrampoline {Ω : Type} (fuel : Nat) (c : Collab Ω) (prologue : insts_t) (d : Detour)
    (p : Process Ω) : Option (Option insts_t × Detour × Process Ω) :=
  match prologue.head? with
  | none => none
  | some front =>
    let prolStart := front.address
    let prolSz := calcInstsSz prologue
    match allocLoop c prologue prolStart prolSz fuel 0 5 [] [] d p with
    | none => none
    | some out => some (finishTrampoline c prologue front prolStart prolSz out)

/-- How far `hook` got before it touches the target: it gave up at one of its checks, or
it is ready to patch the target with the final prologue and rounded prologue size. -/
inductive Prep (Ω : Type) where
  | failed (d : Detour) (p : Process Ω)
  | ready (prologue : insts_t) (roundProlSz : Nat) (d : Detour) (p : Process Ω)

/-- Lines 85–87 of `x64Detour::hook`: log the disassembled trampoline and, when there is
one, the jump table. -/
def logTrampoline {Ω : Type} (c : Collab Ω) (jmpTblOpt : Option insts_t) (d : Detour)
    (p : Process Ω) : Process Ω :=
  let r := c.disassemble p.env p.mem d.m_trampoline d.m_trampoline
    (u64 (d.m_trampoline + d.m_trampolineSz))
  let p := { p with env := r.2 }
  let p := push ("Trampoline:\n" ++ c.instsToStr r.1 ++ "\n") ErrorLevel.INFO p
  match jmpTblOpt with
  | some jmpTbl => push ("Trampoline Jmp Tbl:\n" ++ c.instsToStr jmpTbl ++ "\n") ErrorLevel.INFO p
  | none => p

/-- Lines 28–90 of `x64Detour::hook`: resolve callback and target, size the prologue,
build the trampoline, store its address in the caller's slot. -/
def hookPrepare {Ω : Type} (fuel : Nat) (c : Collab Ω) (d : Detour) (p : Process Ω) :
    Option (Prep Ω) :=
  let r1 := c.disassemble p.env p.mem d.m_fnCallback d.m_fnCallback (u64 (d.m_fnCallback + 100))
  let p := { p with env := r1.2 }
  if r1.1.length ≤ 0 then
    some (Prep.failed d
      (push "Disassembler unable to decode any valid callback instructions" ErrorLevel.SEV p))
  else
    let r2 := c.followJmp p.env p.mem r1.1
    let p := { p with env := r2.2.2 }
    if r2.1 = false then
      some (Prep.failed d (push "Callback jmp resolution failed" ErrorLevel.SEV p))
    else
      match r2.2.1.head? with
      | none => none
      | some callbackFront =>
        let d := { d with m_fnCallback := callbackFront.address }
        let r3 := c.disassemble p.env p.mem d.m_fnAddress d.m_fnAddress (u64 (d.m_fnAddress + 100))
        let p := { p with env := r3.2 }
        if r3.1.length ≤ 0 then
          some (Prep.failed d
            (push "Disassembler unable to decode any valid instructions" ErrorLevel.SEV p))
        else
          let r4 := c.followJmp p.env p.mem r3.1
          let p := { p with env := r4.2.2 }
          if r4.1 = false then
            some (Prep.failed d (push "Prologue jmp resolution failed" ErrorLevel.SEV p))
          else
            match r4.2.1.head? with
            | none => none
            | some front =>
              let insts := r4.2.1
              let d := { d with m_fnAddress := front.address }
              let p := push ("Original function:\n" ++ c.instsToStr insts ++ "\n")
                ErrorLevel.INFO p
              let minProlSz := getPrefJmpSize
              let roundProlSz := minProlSz
              let r5 := c.calcNearestSz p.env insts minProlSz roundProlSz
              let p := { p with env := r5.2.2 }
              let roundProlSz := r5.2.1
              match r5.1 with
              | none =>
                some (Prep.failed d (push "Function too small to hook safely!" ErrorLevel.SEV p))
              | some prologue =>
                if roundProlSz < minProlSz then none
                else
                  let r6 := c.expandProlSelfJmps p.env prologue insts minProlSz roundProlSz
                  let p := { p with env := r6.2.2.2 }
                  let prologue := r6.2.1
                  let roundProlSz := r6.2.2.1
                  if r6.1 = false then
                    some (Prep.failed d (push
                      "Function needs a prologue jmp table but it's too small to insert one"
                      ErrorLevel.SEV p))
                  else
                    let d := { d with m_originalInsts := prologue }
                    let p := push ("Prologue to overwrite:\n" ++ c.instsToStr prologue ++ "\n")
                      ErrorLevel.INFO p
                    match makeTrampoline fuel c prologue d p with
                    | none => none
                    | some (jmpTblOpt, d, p) =>
                      let p := logTrampoline c jmpTblOpt d p
                      let d := { d with userTrampVar := d.m_trampoline }
                      some (Prep.ready prologue roundProlSz d p)

/-- Lines 92–101 of `x64Detour::hook`: under a read/write/execute protector, write the
preferred jump at the target, fill up to the rounded size with `0x90`, mark hooked. -/
def hookPatch {Ω : Type} (c : Collab Ω) (roundProlSz : Nat) (d : Detour) (p : Process Ω) :
    Detour × Process Ω :=
  let minProlSz := getPrefJmpSize
  let p := protect d.m_fnAddress roundProlSz rwx true p
  let prolJmp := c.makex64PreferredJump d.m_fnAddress d.m_fnCallback
  let p := { p with mem := c.writeEncoding prolJmp p.mem }
  let nopSz := u8 (sub64 roundProlSz minProlSz)
  let p := { p with mem := memset (u64 (d.m_fnAddress + minProlSz)) 0x90 nopSz p.mem }
  ({ d with m_hooked := true }, p)

/-- The method `x64Detour::hook` (lines 26–102): the returned boolean with the updated
object and process, or `none` when the run ends in an assertion or out of fuel. -/
def hook {Ω : Type} (fuel : Nat) (c : Collab Ω) (d : Detour) (p : Process Ω) :
    Option (Bool × Detour × Process Ω) :=
  match hookPrepare fuel c d p with
  | none => none
  | some (Prep.failed d p) => some (false, d, p)
  | some (Prep.ready _ roundProlSz d p) => some (true, hookPatch c roundProlSz d p)

/-! ## The checks of `hook`, as the values the collaborators return along its path -/

/-- The callback disassembly of line 28. -/
def cbDis {Ω : Type} (c : Collab Ω) (d : Detour) (p : Process Ω) : insts_t × Ω :=
  c.disassemble p.env p.mem d.m_fnCallback d.m_fnCallback (u64 (d.m_fnCallback + 100))

/-- The call `followJmp(callbackInsts)` of line 34. -/
def cbFol {Ω : Type} (c : Collab Ω) (d : Detour) (p : Process Ω) : Bool × insts_t × Ω :=
  c.followJmp (cbDis c d p).2 p.mem (cbDis c d p).1

/-- The target disassembly of line 42. -/
def fnDis {Ω : Type} (c : Collab Ω) (d : Detour) (p : Process Ω) : insts_t × Ω :=
  c.disassemble (cbFol c d p).2.2 p.mem d.m_fnAddress d.m_fnAddress (u64 (d.m_fnAddress + 100))

/-- The call `followJmp(insts)` of line 48. -/
def fnFol {Ω : Type} (c : Collab Ω) (d : Detour) (p : Process Ω) : Bool × insts_t × Ω :=
  c.followJmp (fnDis c d p).2 p.mem (fnDis c d p).1

/-- The call `calcNearestSz(insts, minProlSz, roundProlSz)` of line 65. -/
def nearest {Ω : Type} (c : Collab Ω) (d : Detour) (p : Process Ω) : Option insts_t × Nat × Ω :=
  c.calcNearestSz (fnFol c d p).2.2 (fnFol c d p).2.1 getPrefJmpSize getPrefJmpSize

/-- The call `expandProlSelfJmps(prologue, insts, minProlSz, roundProlSz)` of line 74. -/
def expanded {Ω : Type} (c : Collab Ω) (d : Detour) (p : Process Ω) :
    Bool × insts_t × Nat × Ω :=
  c.expandProlSelfJmps (nearest c d p).2.2 ((nearest c d p).1.getD []) (fnFol c d p).2.1
    getPrefJmpSize (nearest c d p).2.1

/-- The first of the six checks of `hook` that fails, as the message it logs; `none` when
all six pass. -/
def failedGate {Ω : Type} (c : Collab Ω) (d : Detour) (p : Process Ω) : Option String :=
  if (cbDis c d p).1 = [] then
    some "Disassembler unable to decode any valid callback instructions"
  else if (cbFol c d p).1 = false then
    some "Callback jmp resolution failed"
  else if (fnDis c d p).1 = [] then
    some "Disassembler unable to decode any valid instructions"
  else if (fnFol c d p).1 = false then
    some "Prologue jmp resolution failed"
  else if (nearest c d p).1 = none then
    some "Function too small to hook safely!"
  else if (expanded c d p).1 = false then
    some "Function needs a prologue jmp table but it's too small to insert one"
  else none

/-- The detour object when `hook` reaches `makeTrampoline` (line 84). -/
def trampDetour {Ω : Type} (c : Collab Ω) (d : Detour) (p : Process Ω) : Detour :=
  { d with
    m_fnCallback := ((cbFol c d p).2.1.head?.map Instruction.address).getD 0
    m_fnAddress := ((fnFol c d p).2.1.head?.map Instruction.address).getD 0
    m_originalInsts := (expanded c d p).2.1 }

/-- The process when `hook` reaches `makeTrampoline` (line 84). -/
def trampProcess {Ω : Type} (c : Collab Ω) (d : Detour) (p : Process Ω) : Process Ω :=
  { p with
    env := (expanded c d p).2.2.2
    errorLog :=
      ("Prologue to overwrite:\n" ++ c.instsToStr (expanded c d p).2.1 ++ "\n", ErrorLevel.INFO)
      :: ("Original function:\n" ++ c.instsToStr (fnFol c d p).2.1 ++ "\n", ErrorLevel.INFO)
      :: p.errorLog }

/-- The calls of `makex64MinimumJump` that `jmpTblEntries` makes, oldest first, as a
function of the instructions needing an entry, the first entry address and the value of
the lambda's `static` (`captureAddr`) when the construction starts. -/
def holderCalls (jmpHolderCurAddr jmpSz : Nat) : insts_t → Nat → Option Nat → List MinJmpCall
  | [], _, _ => []
  | inst :: rest, jmpTblCurAddr, captureAddr =>
    let h := sub64 (match captureAddr with
      | none => jmpHolderCurAddr
      | some a => a) destHldrSz
    ⟨jmpTblCurAddr, inst.branchTargetAddress.getD 0, h⟩
      :: holderCalls jmpHolderCurAddr jmpSz rest (u64 (jmpTblCurAddr + jmpSz)) (some h)

/-- Disjointness of the byte ranges `[r.1, r.1 + r.2)` and `[s.1, s.1 + s.2)`. -/
def Disj (r s : Nat × Nat) : Prop := r.1 + r.2 ≤ s.1 ∨ s.1 + s.2 ≤ r.1

/-- The byte ranges `makeTrampoline` lays out in a trampoline at `T` for a prologue of
`prolSz` bytes: the relocated prologue, then for every `makex64MinimumJump` call the
`getMinJmpSize`-byte jump at its address and the `destHldrSz`-byte holder. -/
def trampolineRegions (T prolSz : Nat) (calls : List MinJmpCall) : List (Nat × Nat) :=
  (T, prolSz) :: (calls.map (fun cl => (cl.address, getMinJmpSize))
    ++ calls.map (fun cl => (cl.destHolder, destHldrSz)))

/-- Modelled from the spec: `calcNearestSz` is defined outside `x64Detour.cpp`; the spec's
contract is "accumulate whole leading instructions until accumulated size ≥ minSize", the
achieved size being the rounded size, and `none` when the instructions run out first.
`acc` is the size accumulated so far. -/
def calcNearestSzSpec (minSz : Nat) : insts_t → Nat → Option (insts_t × Nat)
  | [], acc => if minSz ≤ acc then some ([], acc) else none
  | i :: rest, acc =>
    if minSz ≤ acc then some ([], acc)
    else (calcNearestSzSpec minSz rest (acc + i.size)).map (fun r => (i :: r.1, r.2))

/-- The collaborator `calcNearestSz` that follows `calcNearestSzSpec`: it returns the
region and stores the achieved size in `roundedSz`, which it leaves alone on failure, and
it does not touch the collaborator state. -/
def calcNearestSzModel {Ω : Type} (ω : Ω) (insts : insts_t) (minSz roundedSz : Nat) :
    Option insts_t × Nat × Ω :=
  match calcNearestSzSpec minSz insts 0 with
  | some r => (some r.1, r.2, ω)
  | none => (none, roundedSz, ω)

/-- An instruction that is no branch. -/
def plainInst (address size : Nat) : Instruction := ⟨address, size, false, none, false⟩

/-- A conditional relative branch. -/
def branchInst (address size target : Nat) : Instruction :=
  ⟨address, size, true, some target, false⟩

/-- The spec's scenario function: 20 bytes at `0x1000`, four instructions of 5 bytes. -/
def demoPlainFn : insts_t :=
  [plainInst 0x1000 5, plainInst 0x1005 5, plainInst 0x100A 5, plainInst 0x100F 5]

/-- A callback at `0x2000`. -/
def demoCallback : insts_t := [plainInst 0x2000 4, plainInst 0x2004 1]

/-- A function at `0x3000` that starts with a conditional branch to a far address. -/
def demoBranchFnA : insts_t :=
  [branchInst 0x3000 6 0x7000, plainInst 0x3006 5, plainInst 0x300B 5, plainInst 0x3010 5]

/-- A function at `0x4000` that starts with a conditional branch to a far address. -/
def demoBranchFnB : insts_t :=
  [branchInst 0x4000 6 0x8000, plainInst 0x4006 5, plainInst 0x400B 5, plainInst 0x4010 5]

/-- A function at `0x5000` of 10 bytes, too small for the preferred jump. -/
def demoSmallFn : insts_t := [plainInst 0x5000 5, plainInst 0x5005 5]

/-- Write `n` bytes of value `v` from `address` on. -/
def fillBytes (address n v : Nat) (m : Mem) : Mem :=
  fun a => if address ≤ a ∧ a < address + n then v else m a

/-- Concrete collaborators over a process whose collaborator state is the number of
allocations made so far. The disassembler knows the five functions above, no function
starts with an unconditional jump, `calcNearestSz` is `calcNearestSzSpec`, no prologue has
self-jumps, the `k`-th allocation is at `0x100000 + 0x1000 * k`, every relative branch
of the prologue needs a jump-table entry, the preferred jump is `push rax; mov rax, imm64;
xchg [rsp], rax; ret` (1 + 10 + 4 + 1 bytes), the minimum jump is one 6-byte indirect jump,
and the encoder writes `0xE9` for every byte of an instruction. -/
def demo : Collab Nat where
  disassemble := fun ω _ _ addr _ =>
    (if addr = 0x1000 then demoPlainFn else if addr = 0x2000 then demoCallback
      else if addr = 0x3000 then demoBranchFnA else if addr = 0x4000 then demoBranchFnB
      else if addr = 0x5000 then demoSmallFn else [], ω)
  followJmp := fun ω _ insts => (true, insts, ω)
  calcNearestSz := calcNearestSzModel
  expandProlSelfJmps := fun ω prologue _ _ roundProlSz => (true, prologue, roundProlSz, ω)
  instsToStr := fun _ => ""
  alloc := fun ω _ => (0x100000 + 0x1000 * ω, ω + 1)
  buildRelocationList := fun ω prologue _ _ _ _ =>
    (prologue.filter (fun i => i.isRelativeBranch), [], ω)
  makex64PreferredJump := fun addr _ =>
    [plainInst addr 1, plainInst (addr + 1) 10, plainInst (addr + 11) 4, plainInst (addr + 15) 1]
  makex64MinimumJump := fun addr _ _ => [plainInst addr 6]
  writeEncoding := fun insts m => insts.foldl (fun m i => fillBytes i.address i.size 0xE9 m) m
  relocateInsts := fun _ _ _ _ m => m

/-- A process in which nothing has happened yet; every byte is `0xCC`. -/
def demoProcess : Process Nat :=
  { mem := fun _ => 0xCC, env := 0, errorLog := [], heapLog := [], protLog := [],
    minJmpLog := [], captureAddr := none }

/-- A freshly constructed detour of `fnAddress` to `fnCallback`. -/
def newDetour (fnAddress fnCallback : Nat) : Detour :=
  { m_fnAddress := fnAddress, m_fnCallback := fnCallback, m_trampoline := 0,
    m_trampolineSz := 0, m_originalInsts := [], m_hooked := false, userTrampVar := 0 }

/-- The outcome of hooking the scenario function `0x1000` with the callback `0x2000` in
the fresh process. -/
def demoOut : Bool × Detour × Process Nat :=
  (hook 8 demo (newDetour 0x1000 0x2000) demoProcess).getD (false, newDetour 0 0, demoProcess)

/-- The outcome of a first hook in the fresh process: the function at `0x3000`. -/
def demoFirst : Bool × Detour × Process Nat :=
  (hook 8 demo (newDetour 0x3000 0x2000) demoProcess).getD (false, newDetour 0 0, demoProcess)

/-- The outcome of a second hook, by a new detour object in the process the first hook
left: the function at `0x4000`. -/
def demoSecond : Bool × Detour × Process Nat :=
  (hook 8 demo (newDetour 0x4000 0x2000) demoFirst.2.2).getD
    (false, newDetour 0 0, demoProcess)

/-- The outcome of `makeTrampoline` on the function at `0x3000` in the fresh process. -/
def demoTramp : Option insts_t × Detour × Process Nat :=
  (makeTrampoline 8 demo demoBranchFnA (newDetour 0x3000 0x2000) demoProcess).getD
    (none, newDetour 0 0, demoProcess)

/-- Whether a run of `hookPrepare` ended at one of the six checks. -/
def gaveUp {Ω : Type} : Option (Prep Ω) → Bool
  | some (Prep.failed _ _) => true
  | _ => false

/-! ## Machine arithmetic -/

theorem u8_of_lt {x : Nat} (h : x < 256) : u8 x = x := by
  unfold u8; omega

theorem u8_lt (x : Nat) : u8 x < 256 := by
  unfold u8; omega

theorem u16_of_lt {x : Nat} (h : x < 65536) : u16 x = x := by
  unfold u16; omega

theorem u64_of_lt {x : Nat} (h : x < 2 ^ 64) : u64 x = x := by
  unfold u64; omega

theorem sub64_of_le {a b : Nat} (hb : b ≤ a) (ha : a < 2 ^ 64) : sub64 a b = a - b := by
  unfold sub64; omega

/-! ## The allocation loop -/

/-- The loop touches only `m_trampoline`, `m_trampolineSz`, the heap log and the
collaborator state. -/
theorem allocLoop_frame {Ω : Type} (c : Collab Ω) (prologue : insts_t) (prolStart prolSz : Nat) :
    ∀ (fuel iters nec : Nat) (e r : insts_t) (d : Detour) (p : Process Ω) (out : LoopOut Ω),
      allocLoop c prologue prolStart prolSz fuel iters nec e r d p = some out →
      out.d.m_fnAddress = d.m_fnAddress ∧ out.d.m_fnCallback = d.m_fnCallback ∧
      out.d.m_originalInsts = d.m_originalInsts ∧ out.d.m_hooked = d.m_hooked ∧
      out.d.userTrampVar = d.userTrampVar ∧ out.p.mem = p.mem ∧
      out.p.errorLog = p.errorLog ∧ out.p.protLog = p.protLog ∧
      out.p.minJmpLog = p.minJmpLog ∧ out.p.captureAddr = p.captureAddr := by
  intro fuel
  induction fuel with
  | zero => intro iters nec e r d p out h; simp [allocLoop] at h
  | succ n ih =>
    intro iters nec e r d p out h
    by_cases hz : d.m_trampoline = 0
    · simp only [allocLoop, hz, ne_eq, not_true_eq_false, if_false] at h
      split at h
      · simpa using ih _ _ _ _ _ _ _ h
      · simp only [Option.some.injEq] at h
        subst h
        simp
    · simp only [allocLoop, hz, ne_eq, not_false_eq_true, if_true] at h
      split at h
      · simpa using ih _ _ _ _ _ _ _ h
      · simp only [Option.some.injEq] at h
        subst h
        simp

/-- On exit the newest heap event is the allocation of `m_trampoline`. -/
theorem allocLoop_heap {Ω : Type} (c : Collab Ω) (prologue : insts_t) (prolStart prolSz : Nat) :
    ∀ (fuel iters nec : Nat) (e r : insts_t) (d : Detour) (p : Process Ω) (out : LoopOut Ω),
      allocLoop c prologue prolStart prolSz fuel iters nec e r d p = some out →
      ∃ rest, out.p.heapLog
        = HeapEvent.alloc out.d.m_trampoline out.d.m_trampolineSz :: rest := by
  intro fuel
  induction fuel with
  | zero => intro iters nec e r d p out h; simp [allocLoop] at h
  | succ n ih =>
    intro iters nec e r d p out h
    by_cases hz : d.m_trampoline = 0
    · simp only [allocLoop, hz, ne_eq, not_true_eq_false, if_false] at h
      split at h
      · exact ih _ _ _ _ _ _ _ h
      · simp only [Option.some.injEq] at h
        subst h
        exact ⟨_, rfl⟩
    · simp only [allocLoop, hz, ne_eq, not_false_eq_true, if_true] at h
      split at h
      · exact ih _ _ _ _ _ _ _ h
      · simp only [Option.some.injEq] at h
        subst h
        exact ⟨_, rfl⟩

/-- On exit the guess covers the entries needed, it is a `uint8_t`, and the trampoline
size is the one computed from it. -/
theorem allocLoop_exit {Ω : Type} (c : Collab Ω) (prologue : insts_t) (prolStart prolSz : Nat) :
    ∀ (fuel iters nec : Nat) (e r : insts_t) (d : Detour) (p : Process Ω) (out : LoopOut Ω),
      nec ≤ 255 →
      allocLoop c prologue prolStart prolSz fuel iters nec e r d p = some out →
      out.instsNeedingEntry.length ≤ out.neededEntryCount ∧ out.neededEntryCount ≤ 255 ∧
      out.d.m_trampolineSz = u16 (prolSz + 14 + 14 * out.neededEntryCount) := by
  intro fuel
  induction fuel with
  | zero => intro iters nec e r d p out _ h; simp [allocLoop] at h
  | succ n ih =>
    intro iters nec e r d p out hnec h
    by_cases hz : d.m_trampoline = 0
    · simp only [allocLoop, hz, ne_eq, not_true_eq_false, if_false] at h
      split at h
      · exact ih _ _ _ _ _ _ _ hnec h
      · rename_i hle
        simp only [Option.some.injEq] at h
        subst h
        refine ⟨by simpa using hle, hnec, ?_⟩
        simp [getMinJmpSize, destHldrSz]
    · simp only [allocLoop, hz, ne_eq, not_false_eq_true, if_true] at h
      have hn : u8 e.length ≤ 255 := by have := u8_lt e.length; omega
      split at h
      · exact ih _ _ _ _ _ _ _ hn h
      · rename_i hle
        simp only [Option.some.injEq] at h
        subst h
        refine ⟨by simpa using hle, hn, ?_⟩
        simp [getMinJmpSize, destHldrSz]

/-- Once `m_trampoline` is non-null the loop stops within `B - |instsNeedingEntry| + 1`
iterations, `B` bounding the lists `buildRelocationList` yields. -/
theorem allocLoop_terminates_nonnull {Ω : Type} (c : Collab Ω) (prologue : insts_t)
    (prolStart prolSz B : Nat) (hB : B ≤ 255)
    (hlen : ∀ ω δ e r, (c.buildRelocationList ω prologue prolSz δ e r).1.length ≤ B)
    (halloc : ∀ ω n, (c.alloc ω n).1 ≠ 0) :
    ∀ (k fuel iters nec : Nat) (e r : insts_t) (d : Detour) (p : Process Ω),
      d.m_trampoline ≠ 0 → e.length ≤ B → B - e.length ≤ k → k + 1 ≤ fuel →
      ∃ out, allocLoop c prologue prolStart prolSz fuel iters nec e r d p = some out
        ∧ out.iters ≤ iters + k + 1 := by
  intro k
  induction k with
  | zero =>
    intro fuel iters nec e r d p hd he hk hf
    obtain ⟨n, rfl⟩ : ∃ n, fuel = n + 1 := ⟨fuel - 1, by omega⟩
    have h8 : u8 e.length = e.length := u8_of_lt (by omega)
    simp only [allocLoop, hd, ne_eq, not_false_eq_true, if_true]
    split
    · rename_i hgt
      have h1 := Nat.lt_of_lt_of_le hgt (hlen _ _ _ _)
      omega
    · exact ⟨_, rfl, by simp⟩
  | succ k ih =>
    intro fuel iters nec e r d p hd he hk hf
    obtain ⟨n, rfl⟩ : ∃ n, fuel = n + 1 := ⟨fuel - 1, by omega⟩
    have h8 : u8 e.length = e.length := u8_of_lt (by omega)
    simp only [allocLoop, hd, ne_eq, not_false_eq_true, if_true]
    split
    · rename_i hgt
      have h1 := Nat.lt_of_lt_of_le hgt (hlen _ _ _ _)
      apply Exists.imp ?f (ih n (iters + 1) _ _ _ _ _ ?h1 ?h2 ?h3 ?h4)
      case f =>
        intro out h
        exact ⟨h.1, by have := h.2; omega⟩
      case h1 => exact halloc _ _
      case h2 => exact hlen _ _ _ _
      case h3 => omega
      case h4 => omega
    · exact ⟨_, rfl, by simp⟩

/-- From any initial `m_trampoline` the loop of `makeTrampoline` stops within `B + 1`
iterations, `B` bounding the lists `buildRelocationList` yields. -/
theorem allocLoop_terminates_bound {Ω : Type} (c : Collab Ω) (prologue : insts_t)
    (prolStart prolSz B : Nat) (hB : B ≤ 255)
    (hlen : ∀ ω δ e r, (c.buildRelocationList ω prologue prolSz δ e r).1.length ≤ B)
    (halloc : ∀ ω n, (c.alloc ω n).1 ≠ 0)
    (fuel : Nat) (hfuel : B + 1 ≤ fuel) (d : Detour) (p : Process Ω) :
    ∃ out, allocLoop c prologue prolStart prolSz fuel 0 5 [] [] d p = some out
      ∧ out.iters ≤ B + 1 := by
  by_cases hd : d.m_trampoline = 0
  · obtain ⟨n, rfl⟩ : ∃ n, fuel = n + 1 := ⟨fuel - 1, by omega⟩
    simp only [allocLoop, hd, ne_eq, not_true_eq_false, if_false]
    split
    · rename_i hgt
      have h1 := Nat.lt_of_lt_of_le hgt (hlen _ _ _ _)
      apply Exists.imp ?f (allocLoop_terminates_nonnull c prologue prolStart prolSz B hB
        hlen halloc (B - 6) n (0 + 1) _ _ _ _ _ ?h1 ?h2 ?h3 ?h4)
      case f =>
        intro out h
        exact ⟨h.1, by have := h.2; omega⟩
      case h1 => exact halloc _ _
      case h2 => exact hlen _ _ _ _
      case h3 => omega
      case h4 => omega
    · exact ⟨_, rfl, by simp⟩
  · obtain ⟨out, ho, hi⟩ := allocLoop_terminates_nonnull c prologue prolStart prolSz B hB
      hlen halloc B fuel 0 5 [] [] d p hd (by simp) (by simp) hfuel
    exact ⟨out, ho, by omega⟩

/-! ## The trampoline body -/

/-- The jump-table construction leaves the heap, the protections, the error log and the
collaborator state alone. -/
theorem jmpTblEntries_frame {Ω : Type} (c : Collab Ω) (H jmpSz : Nat) :
    ∀ (es : insts_t) (cur : Nat) (p : Process Ω),
      (jmpTblEntries c H jmpSz es cur p).2.heapLog = p.heapLog ∧
      (jmpTblEntries c H jmpSz es cur p).2.protLog = p.protLog ∧
      (jmpTblEntries c H jmpSz es cur p).2.errorLog = p.errorLog ∧
      (jmpTblEntries c H jmpSz es cur p).2.env = p.env := by
  intro es
  induction es with
  | nil => intro cur p; simp [jmpTblEntries]
  | cons inst rest ih =>
    intro cur p
    simp only [jmpTblEntries]
    obtain ⟨h1, h2, h3, h4⟩ := ih (u64 (cur + jmpSz))
      { (calcJmpHolder H p).2 with
        minJmpLog := ⟨cur, inst.branchTargetAddress.getD 0, (calcJmpHolder H p).1⟩
          :: (calcJmpHolder H p).2.minJmpLog
        mem := c.writeEncoding
          (c.makex64MinimumJump cur (inst.branchTargetAddress.getD 0) (calcJmpHolder H p).1)
          (calcJmpHolder H p).2.mem }
    rw [h1, h2, h3, h4]
    simp [calcJmpHolder]

/-- The jump-table construction adds exactly `holderCalls` to the call log. -/
theorem jmpTblEntries_log {Ω : Type} (c : Collab Ω) (H jmpSz : Nat) :
    ∀ (es : insts_t) (cur : Nat) (p : Process Ω),
      (jmpTblEntries c H jmpSz es cur p).2.minJmpLog
        = (holderCalls H jmpSz es cur p.captureAddr).reverse ++ p.minJmpLog := by
  intro es
  induction es with
  | nil => intro cur p; simp [jmpTblEntries, holderCalls]
  | cons inst rest ih =>
    intro cur p
    simp only [jmpTblEntries, holderCalls]
    rw [ih]
    simp [calcJmpHolder]

theorem holderCalls_length (H jmpSz : Nat) :
    ∀ (es : insts_t) (cur : Nat) (cap : Option Nat),
      (holderCalls H jmpSz es cur cap).length = es.length := by
  intro es
  induction es with
  | nil => intro cur cap; rfl
  | cons inst rest ih => intro cur cap; simp [holderCalls, ih]

/-- The trampoline body keeps the object the loop left. -/
theorem finishTrampoline_detour {Ω : Type} (c : Collab Ω) (prologue : insts_t)
    (front : Instruction) (prolStart prolSz : Nat) (out : LoopOut Ω) :
    (finishTrampoline c prologue front prolStart prolSz out).2.1 = out.d := by
  unfold finishTrampoline
  simp only []
  split <;> rfl

/-- The trampoline body does not touch the heap. -/
theorem finishTrampoline_heap {Ω : Type} (c : Collab Ω) (prologue : insts_t)
    (front : Instruction) (prolStart prolSz : Nat) (out : LoopOut Ω) :
    (finishTrampoline c prologue front prolStart prolSz out).2.2.heapLog = out.p.heapLog := by
  unfold finishTrampoline
  simp only [relocateTrampoline]
  split <;> simp [(jmpTblEntries_frame c _ _ _ _ _).1, push, protect]

/-- The trampoline body first logs the jump back to the original function, then the
jump-table entries. -/
theorem finishTrampoline_log {Ω : Type} (c : Collab Ω) (prologue : insts_t)
    (front : Instruction) (prolStart prolSz : Nat) (out : LoopOut Ω) :
    (finishTrampoline c prologue front prolStart prolSz out).2.2.minJmpLog
      = (holderCalls (sub64 (u64 (out.d.m_trampoline + out.d.m_trampolineSz)) destHldrSz)
          getMinJmpSize out.instsNeedingEntry
          (u64 (u64 (out.d.m_trampoline + prolSz) + getMinJmpSize)) out.p.captureAddr).reverse
        ++ ⟨u64 (out.d.m_trampoline + prolSz), u64 (front.address + prolSz),
            sub64 (u64 (out.d.m_trampoline + out.d.m_trampolineSz)) destHldrSz⟩
          :: out.p.minJmpLog := by
  unfold finishTrampoline
  simp only [relocateTrampoline]
  split <;> simp [jmpTblEntries_log, push, protect]

/-! ## `hook` up to the patch -/

theorem sevCount_sev (msg : String) (log : List (String × ErrorLevel)) :
    sevCount ((msg, ErrorLevel.SEV) :: log) = sevCount log + 1 := by
  simp [sevCount]

theorem sevCount_info (msg : String) (log : List (String × ErrorLevel)) :
    sevCount ((msg, ErrorLevel.INFO) :: log) = sevCount log := by
  simp [sevCount]

/-- When `hook` gives up, it has changed neither memory nor the caller's slot nor
`m_hooked`, the heap, the protections and the call log; one of the six checks failed, and
its message is the newest log entry and the only `SEV` entry added. -/
theorem hookPrepare_failed {Ω : Type} (fuel : Nat) (c : Collab Ω) (d d' : Detour)
    (p p' : Process Ω) (h : hookPrepare fuel c d p = some (Prep.failed d' p')) :
    p'.mem = p.mem ∧ d'.userTrampVar = d.userTrampVar ∧ d'.m_hooked = d.m_hooked ∧
    d'.m_trampoline = d.m_trampoline ∧ p'.heapLog = p.heapLog ∧ p'.protLog = p.protLog ∧
    p'.minJmpLog = p.minJmpLog ∧
    ∃ msg rest, failedGate c d p = some msg ∧ p'.errorLog = (msg, ErrorLevel.SEV) :: rest ∧
      sevCount p'.errorLog = sevCount p.errorLog + 1 := by
  simp only [hookPrepare] at h
  repeat' split at h
  all_goals cases h
  all_goals refine ⟨rfl, rfl, rfl, rfl, rfl, rfl, rfl, _, _, ?_, rfl, ?_⟩
  all_goals
    simp_all [failedGate, cbDis, cbFol, fnDis, fnFol, nearest, expanded, push, sevCount_sev,
      sevCount_info]

/-- The trampoline log lines change only the error log (by `INFO` entries) and the
collaborator state. -/
theorem logTrampoline_frame {Ω : Type} (c : Collab Ω) (jt : Option insts_t) (d : Detour)
    (p : Process Ω) :
    (logTrampoline c jt d p).mem = p.mem ∧ (logTrampoline c jt d p).heapLog = p.heapLog ∧
    (logTrampoline c jt d p).protLog = p.protLog ∧
    (logTrampoline c jt d p).minJmpLog = p.minJmpLog ∧
    (logTrampoline c jt d p).captureAddr = p.captureAddr ∧
    sevCount (logTrampoline c jt d p).errorLog = sevCount p.errorLog := by
  cases jt <;> simp [logTrampoline, push, sevCount_info]

/-- When all six checks pass and the asserted conditions hold, `hook` reaches
`makeTrampoline` with the expanded prologue, and is ready to patch when it returns. -/
theorem hookPrepare_of_gates_pass {Ω : Type} (fuel : Nat) (c : Collab Ω) (d : Detour)
    (p : Process Ω) (hg : failedGate c d p = none)
    (hcb : (cbFol c d p).2.1 ≠ []) (hfn : (fnFol c d p).2.1 ≠ [])
    (hr : getPrefJmpSize ≤ (nearest c d p).2.1) :
    hookPrepare fuel c d p =
      (makeTrampoline fuel c (expanded c d p).2.1 (trampDetour c d p) (trampProcess c d p)).map
        (fun r => Prep.ready (expanded c d p).2.1 (expanded c d p).2.2.1
          { r.2.1 with userTrampVar := r.2.1.m_trampoline } (logTrampoline c r.1 r.2.1 r.2.2)) := by
  obtain ⟨cbFront, hcbF⟩ : ∃ x, (cbFol c d p).2.1.head? = some x := by
    cases hl : (cbFol c d p).2.1 with
    | nil => exact absurd hl hcb
    | cons a l => exact ⟨a, rfl⟩
  obtain ⟨front, hfnF⟩ : ∃ x, (fnFol c d p).2.1.head? = some x := by
    cases hl : (fnFol c d p).2.1 with
    | nil => exact absurd hl hfn
    | cons a l => exact ⟨a, rfl⟩
  simp only [failedGate] at hg
  repeat' split at hg
  all_goals cases hg
  rename_i h1 h2 h3 h4 h5 h6
  obtain ⟨prologue, hpro⟩ : ∃ x, (nearest c d p).1 = some x := by
    cases hn : (nearest c d p).1 with
    | none => exact absurd hn h5
    | some x => exact ⟨x, rfl⟩
  simp only [cbDis, cbFol, fnDis, fnFol, nearest, expanded] at *
  simp only [hookPrepare, trampDetour, trampProcess, cbDis, cbFol, fnDis, fnFol, nearest,
    expanded, push]
  repeat' split
  all_goals first
    | (exfalso; omega)
    | simp_all [push]

/-- When `hook` is ready to patch, all six checks passed, the asserted conditions held,
and `makeTrampoline` returned on the expanded prologue. -/
theorem hookPrepare_ready {Ω : Type} (fuel : Nat) (c : Collab Ω) (d d' : Detour)
    (p p' : Process Ω) (prologue : insts_t) (R : Nat)
    (h : hookPrepare fuel c d p = some (Prep.ready prologue R d' p')) :
    failedGate c d p = none ∧ (cbFol c d p).2.1 ≠ [] ∧ (fnFol c d p).2.1 ≠ [] ∧
    getPrefJmpSize ≤ (nearest c d p).2.1 ∧
    prologue = (expanded c d p).2.1 ∧ R = (expanded c d p).2.2.1 ∧
    ∃ r, makeTrampoline fuel c prologue (trampDetour c d p) (trampProcess c d p) = some r ∧
      d' = { r.2.1 with userTrampVar := r.2.1.m_trampoline } ∧
      p' = logTrampoline c r.1 r.2.1 r.2.2 := by
  simp only [hookPrepare] at h
  repeat' split at h
  all_goals cases h
  rename_i hmk
  simp_all [failedGate, cbDis, cbFol, fnDis, fnFol, nearest, expanded, push, trampDetour,
    trampProcess]
  constructor <;> (intro hn; simp_all)

/-- A returning `makeTrampoline` is its allocation loop followed by the body. -/
theorem makeTrampoline_some {Ω : Type} (fuel : Nat) (c : Collab Ω) (prologue : insts_t)
    (d : Detour) (p : Process Ω) (r : Option insts_t × Detour × Process Ω)
    (h : makeTrampoline fuel c prologue d p = some r) :
    ∃ front out, prologue.head? = some front ∧
      allocLoop c prologue front.address (calcInstsSz prologue) fuel 0 5 [] [] d p = some out ∧
      r = finishTrampoline c prologue front front.address (calcInstsSz prologue) out := by
  unfold makeTrampoline at h
  split at h
  · cases h
  · rename_i front hf
    simp only [] at h
    split at h
    · cases h
    · rename_i out ho
      simp only [Option.some.injEq] at h
      exact ⟨front, out, hf, ho, h.symm⟩

/-- Of the detour object `makeTrampoline` changes only `m_trampoline` and
`m_trampolineSz`, and the newest heap event on return is the allocation of
`m_trampoline`. -/
theorem makeTrampoline_frame {Ω : Type} (fuel : Nat) (c : Collab Ω) (prologue : insts_t)
    (d : Detour) (p : Process Ω) (r : Option insts_t × Detour × Process Ω)
    (h : makeTrampoline fuel c prologue d p = some r) :
    r.2.1.m_fnAddress = d.m_fnAddress ∧ r.2.1.m_fnCallback = d.m_fnCallback ∧
    r.2.1.m_originalInsts = d.m_originalInsts ∧ r.2.1.m_hooked = d.m_hooked ∧
    r.2.1.userTrampVar = d.userTrampVar ∧
    ∃ rest, r.2.2.heapLog = HeapEvent.alloc r.2.1.m_trampoline r.2.1.m_trampolineSz :: rest := by
  obtain ⟨front, out, _, ho, rfl⟩ := makeTrampoline_some fuel c prologue d p r h
  have hf := allocLoop_frame c prologue _ _ _ _ _ _ _ _ _ _ ho
  have hh := allocLoop_heap c prologue _ _ _ _ _ _ _ _ _ _ ho
  rw [finishTrampoline_detour, finishTrampoline_heap]
  exact ⟨hf.1, hf.2.1, hf.2.2.1, hf.2.2.2.1, hf.2.2.2.2.1, hh⟩

/-! ## Claims about `hook` -/

/-- A run of `hook` that returns `true` is a run of `hookPrepare` that got ready,
followed by `hookPatch`. -/
theorem hook_true_iff {Ω : Type} (fuel : Nat) (c : Collab Ω) (d d' : Detour)
    (p p' : Process Ω) :
    hook fuel c d p = some (true, d', p') ↔
      ∃ prologue R d1 p1, hookPrepare fuel c d p = some (Prep.ready prologue R d1 p1)
        ∧ hookPatch c R d1 p1 = (d', p') := by
  unfold hook
  constructor
  · intro h
    split at h
    · cases h
    · cases h
    · rename_i prologue R d1 p1 heq
      simp only [Option.some.injEq, Prod.mk.injEq, true_and] at h
      exact ⟨prologue, R, d1, p1, heq, h⟩
  · rintro ⟨prologue, R, d1, p1, heq, hp⟩
    rw [heq]
    simp [hp]

/-- A run of `hook` that returns `false` is a run of `hookPrepare` that gave up. -/
theorem hook_false_iff {Ω : Type} (fuel : Nat) (c : Collab Ω) (d d' : Detour)
    (p p' : Process Ω) :
    hook fuel c d p = some (false, d', p') ↔
      hookPrepare fuel c d p = some (Prep.failed d' p') := by
  unfold hook
  constructor
  · intro h
    split at h
    · cases h
    · rename_i d1 p1 heq
      simp only [Option.some.injEq, Prod.mk.injEq, true_and] at h
      rw [heq, h.1, h.2]
    · cases h
  · intro heq
    rw [heq]

/-- In a run of `hook` that returns `true`, the object and the process are determined by
the collaborators' answers along the path and by the `makeTrampoline` call. -/
theorem hook_true_inv {Ω : Type} (fuel : Nat) (c : Collab Ω) (d d' : Detour)
    (p p' : Process Ω) (h : hook fuel c d p = some (true, d', p')) :
    ∃ cbFront front r,
      (cbFol c d p).2.1.head? = some cbFront ∧ (fnFol c d p).2.1.head? = some front ∧
      failedGate c d p = none ∧ getPrefJmpSize ≤ (nearest c d p).2.1 ∧
      makeTrampoline fuel c (expanded c d p).2.1 (trampDetour c d p) (trampProcess c d p)
        = some r ∧
      hookPrepare fuel c d p = some (Prep.ready (expanded c d p).2.1 (expanded c d p).2.2.1
        { r.2.1 with userTrampVar := r.2.1.m_trampoline } (logTrampoline c r.1 r.2.1 r.2.2)) ∧
      hookPatch c (expanded c d p).2.2.1 { r.2.1 with userTrampVar := r.2.1.m_trampoline }
        (logTrampoline c r.1 r.2.1 r.2.2) = (d', p') ∧
      r.2.1.m_fnAddress = front.address ∧ r.2.1.m_fnCallback = cbFront.address := by
  obtain ⟨prologue, R, d1, p1, hprep, hpatch⟩ := (hook_true_iff fuel c d d' p p').1 h
  obtain ⟨hg, hcb, hfn, hr, rfl, rfl, r, hmk, rfl, rfl⟩ :=
    hookPrepare_ready fuel c d d1 p p1 prologue R hprep
  obtain ⟨cbFront, hcbF⟩ : ∃ x, (cbFol c d p).2.1.head? = some x := by
    cases hl : (cbFol c d p).2.1 with
    | nil => exact absurd hl hcb
    | cons a l => exact ⟨a, rfl⟩
  obtain ⟨front, hfnF⟩ : ∃ x, (fnFol c d p).2.1.head? = some x := by
    cases hl : (fnFol c d p).2.1 with
    | nil => exact absurd hl hfn
    | cons a l => exact ⟨a, rfl⟩
  have hfr := makeTrampoline_frame fuel c _ _ _ r hmk
  refine ⟨cbFront, front, r, hcbF, hfnF, hg, hr, hmk, hprep, hpatch, ?_, ?_⟩
  · rw [hfr.1]; simp [trampDetour, hfnF]
  · rw [hfr.2.1]; simp [trampDetour, hcbF]

/-- C1. No partial mutation on failure: whenever `hook` returns `false` — whatever the
engine state, the process and the collaborators — every byte of memory (so every byte of
the target function) is the same as before the call, the caller's output slot
`*m_userTrampVar` holds what it held, and `m_hooked` is unchanged (so still `false` when
it was `false`). -/
theorem hook_failure_no_mutation {Ω : Type} (fuel : Nat) (c : Collab Ω) (d d' : Detour)
    (p p' : Process Ω) (h : hook fuel c d p = some (false, d', p')) :
    (∀ a, p'.mem a = p.mem a) ∧ d'.userTrampVar = d.userTrampVar ∧
    d'.m_hooked = d.m_hooked ∧ (d.m_hooked = false → d'.m_hooked = false) := by
  have hf := hookPrepare_failed fuel c d d' p p' ((hook_false_iff fuel c d d' p p').1 h)
  refine ⟨fun a => by rw [hf.1], hf.2.1, hf.2.2.1, fun h0 => by rw [hf.2.2.1, h0]⟩

/-- C1, witnessed on the 10-byte function at `0x5000`: `hook` returns `false` there. -/
theorem hook_failure_no_mutation_witness :
    hook 8 demo (newDetour 0x5000 0x2000) demoProcess
        = some (false, newDetour 0x5000 0x2000,
            { demoProcess with errorLog :=
                [("Function too small to hook safely!", ErrorLevel.SEV),
                 ("Original function:\n\n", ErrorLevel.INFO)] }) ∧
      ((∀ a, ({ demoProcess with errorLog :=
                [("Function too small to hook safely!", ErrorLevel.SEV),
                 ("Original function:\n\n", ErrorLevel.INFO)] } : Process Nat).mem a
          = demoProcess.mem a) ∧
        (newDetour 0x5000 0x2000).userTrampVar = (newDetour 0x5000 0x2000).userTrampVar ∧
        (newDetour 0x5000 0x2000).m_hooked = (newDetour 0x5000 0x2000).m_hooked ∧
        ((newDetour 0x5000 0x2000).m_hooked = false
          → (newDetour 0x5000 0x2000).m_hooked = false)) :=
  ⟨by rfl, hook_failure_no_mutation 8 demo _ _ _ _ (by rfl)⟩

/-- C4. Success postcondition: whenever `hook` returns `true`, `m_hooked` is `true`, the
caller's output slot `*m_userTrampVar` holds `m_trampoline`, and the newest heap event is
the allocation of `m_trampoline` (of `m_trampolineSz` bytes) by the allocation loop of
`makeTrampoline`: the slot holds the last allocation, which has not been released. -/
theorem hook_success_postcondition {Ω : Type} (fuel : Nat) (c : Collab Ω) (d d' : Detour)
    (p p' : Process Ω) (h : hook fuel c d p = some (true, d', p')) :
    d'.m_hooked = true ∧ d'.userTrampVar = d'.m_trampoline ∧
    ∃ rest, p'.heapLog = HeapEvent.alloc d'.m_trampoline d'.m_trampolineSz :: rest := by
  obtain ⟨cbFront, front, r, _, _, _, _, hmk, _, hpatch, _, _⟩ := hook_true_inv fuel c d d' p p' h
  obtain ⟨_, _, _, _, _, rest, hheap⟩ := makeTrampoline_frame fuel c _ _ _ r hmk
  have hlog := logTrampoline_frame c r.1 r.2.1 r.2.2
  simp only [hookPatch, protect, Prod.mk.injEq] at hpatch
  obtain ⟨rfl, rfl⟩ := hpatch
  exact ⟨rfl, rfl, rest, by simp only [hlog.2.1, hheap]⟩

/-- C4, witnessed on the scenario function at `0x1000`: `hook` returns `true` there. -/
theorem hook_success_postcondition_witness :
    hook 8 demo (newDetour 0x1000 0x2000) demoProcess = some (true, demoOut.2.1, demoOut.2.2) ∧
    (demoOut.2.1.m_hooked = true ∧ demoOut.2.1.userTrampVar = demoOut.2.1.m_trampoline ∧
      ∃ rest, demoOut.2.2.heapLog
        = HeapEvent.alloc demoOut.2.1.m_trampoline demoOut.2.1.m_trampolineSz :: rest) :=
  ⟨by rfl, hook_success_postcondition 8 demo (newDetour 0x1000 0x2000) demoOut.2.1 demoProcess
    demoOut.2.2 (by rfl)⟩

/-- C6. Resolved addresses are the effective ones: in every run of `hook` that returns
`true`, `m_fnCallback` and `m_fnAddress` are the addresses of the first instructions of
the callback and target sequences as `followJmp` left them; the jump written to memory is
`makex64PreferredJump` of these two addresses; the no-op padding starts `getPrefJmpSize`
bytes after the resolved target address; and the `MemoryProtector` of the patch is taken
at the resolved target address with the rounded prologue size and flags `R|W|X` — so not
at the supplied entry address when resolution moved away from it. -/
theorem hook_resolved_addresses {Ω : Type} (fuel : Nat) (c : Collab Ω) (d d' : Detour)
    (p p' : Process Ω) (h : hook fuel c d p = some (true, d', p')) :
    ∃ cbFront front prologue R d1 p1,
      (cbFol c d p).2.1.head? = some cbFront ∧ (fnFol c d p).2.1.head? = some front ∧
      d'.m_fnCallback = cbFront.address ∧ d'.m_fnAddress = front.address ∧
      hookPrepare fuel c d p = some (Prep.ready prologue R d1 p1) ∧
      p'.mem = memset (u64 (front.address + getPrefJmpSize)) 0x90 (u8 (sub64 R getPrefJmpSize))
        (c.writeEncoding (c.makex64PreferredJump front.address cbFront.address) p1.mem) ∧
      p'.protLog = ⟨front.address, R, rwx, true⟩ :: p1.protLog ∧
      (front.address ≠ d.m_fnAddress →
        ∀ e, p'.protLog.head? = some e → e.address ≠ d.m_fnAddress) := by
  obtain ⟨cbFront, front, r, hcbF, hfnF, _, _, _, hprep, hpatch, hfa, hca⟩ :=
    hook_true_inv fuel c d d' p p' h
  simp only [hookPatch, protect, Prod.mk.injEq] at hpatch
  obtain ⟨rfl, rfl⟩ := hpatch
  refine ⟨cbFront, front, _, _, _, _, hcbF, hfnF, hca, hfa, hprep, ?_, ?_, ?_⟩
  · simp only [hfa, hca]
  · simp only [hfa]
  · intro hne e he
    simp only [hfa, List.head?_cons, Option.some.injEq] at he
    rw [← he]
    exact hne

/-- C6, witnessed on the scenario function at `0x1000`. -/
theorem hook_resolved_addresses_witness :
    hook 8 demo (newDetour 0x1000 0x2000) demoProcess = some (true, demoOut.2.1, demoOut.2.2) ∧
    ∃ cbFront front prologue R d1 p1,
      (cbFol demo (newDetour 0x1000 0x2000) demoProcess).2.1.head? = some cbFront ∧
      (fnFol demo (newDetour 0x1000 0x2000) demoProcess).2.1.head? = some front ∧
      demoOut.2.1.m_fnCallback = cbFront.address ∧ demoOut.2.1.m_fnAddress = front.address ∧
      hookPrepare 8 demo (newDetour 0x1000 0x2000) demoProcess
        = some (Prep.ready prologue R d1 p1) ∧
      demoOut.2.2.mem = memset (u64 (front.address + getPrefJmpSize)) 0x90
        (u8 (sub64 R getPrefJmpSize))
        (demo.writeEncoding (demo.makex64PreferredJump front.address cbFront.address) p1.mem) ∧
      demoOut.2.2.protLog = ⟨front.address, R, rwx, true⟩ :: p1.protLog ∧
      (front.address ≠ (newDetour 0x1000 0x2000).m_fnAddress →
        ∀ e, demoOut.2.2.protLog.head? = some e
          → e.address ≠ (newDetour 0x1000 0x2000).m_fnAddress) :=
  ⟨by rfl, hook_resolved_addresses 8 demo (newDetour 0x1000 0x2000) demoOut.2.1 demoProcess
    demoOut.2.2 (by rfl)⟩

theorem memset_inside (dst val n : Nat) (m : Mem) (a : Nat) (h1 : dst ≤ a) (h2 : a < dst + n) :
    memset dst val n m a = val := by
  simp [memset, h1, h2]

theorem memset_outside (dst val n : Nat) (m : Mem) (a : Nat) (h : a < dst ∨ dst + n ≤ a) :
    memset dst val n m a = m a := by
  unfold memset
  rw [if_neg (by omega)]

/-- The concrete encoder writes the preferred jump into the 16 bytes from its address. -/
theorem demo_jump_frame (addr dest : Nat) (m : Mem) (a : Nat) (h : addr + 16 ≤ a) :
    demo.writeEncoding (demo.makex64PreferredJump addr dest) m a = m a := by
  simp only [demo, List.foldl, fillBytes, plainInst]
  repeat rw [if_neg (by omega)]

/-- C7. Convergence bound of the allocation loop of `makeTrampoline`: for every prologue
of `N ≤ 255` instructions, every initial `m_trampoline` (null or not), every process and
every sequence of (non-null) allocation addresses, when every call of
`buildRelocationList` yields as `instsNeedingEntry` a sub-list of the prologue, the loop
run with any fuel of at least `N + 1` iterations returns, having run at most `N + 1`
iterations. -/
theorem allocLoop_convergence {Ω : Type} (c : Collab Ω) (prologue : insts_t)
    (hN : prologue.length ≤ 255)
    (hsub : ∀ ω sz δ e r, (c.buildRelocationList ω prologue sz δ e r).1.Sublist prologue)
    (halloc : ∀ ω n, (c.alloc ω n).1 ≠ 0)
    (prolStart prolSz fuel : Nat) (hfuel : prologue.length + 1 ≤ fuel)
    (d : Detour) (p : Process Ω) :
    ∃ out, allocLoop c prologue prolStart prolSz fuel 0 5 [] [] d p = some out
      ∧ out.iters ≤ prologue.length + 1 :=
  allocLoop_terminates_bound c prologue prolStart prolSz prologue.length hN
    (fun ω δ e r => (hsub ω prolSz δ e r).length_le) halloc fuel hfuel d p

/-- The concrete `buildRelocationList` yields a sub-list of the prologue. -/
theorem demo_sublist (ω : Nat) (pr : insts_t) (sz : Nat) (δ : Int) (e r : insts_t) :
    (demo.buildRelocationList ω pr sz δ e r).1.Sublist pr := by
  simp only [demo]
  exact List.filter_sublist pr

/-- The concrete allocator never returns null. -/
theorem demo_alloc_ne (ω n : Nat) : (demo.alloc ω n).1 ≠ 0 := by
  simp [demo]

/-- C7, witnessed on the four-instruction function at `0x3000` with the concrete
collaborators, from a null and unhooked detour. -/
theorem allocLoop_convergence_witness :
    (demoBranchFnA.length ≤ 255 ∧ demoBranchFnA.length + 1 ≤ 5) ∧
    ∃ out, allocLoop demo demoBranchFnA 0x3000 21 5 0 5 [] [] (newDetour 0x3000 0x2000)
        demoProcess = some out
      ∧ out.iters ≤ demoBranchFnA.length + 1 :=
  ⟨⟨by decide, by decide⟩,
    allocLoop_convergence demo demoBranchFnA (by decide)
      (fun ω sz δ e r => demo_sublist ω demoBranchFnA sz δ e r) demo_alloc_ne
      0x3000 21 5 (by decide) (newDetour 0x3000 0x2000) demoProcess⟩

/-- With a non-empty prologue of at most 255 instructions, sub-list answers from
`buildRelocationList` and non-null allocations, `makeTrampoline` returns. -/
theorem makeTrampoline_terminates {Ω : Type} (fuel : Nat) (c : Collab Ω) (prologue : insts_t)
    (d : Detour) (p : Process Ω) (hne : prologue ≠ []) (hN : prologue.length ≤ 255)
    (hsub : ∀ ω pr sz δ e r, (c.buildRelocationList ω pr sz δ e r).1.Sublist pr)
    (halloc : ∀ ω n, (c.alloc ω n).1 ≠ 0) (hfuel : prologue.length + 1 ≤ fuel) :
    ∃ r, makeTrampoline fuel c prologue d p = some r := by
  cases hp : prologue with
  | nil => exact absurd hp hne
  | cons front rest =>
    obtain ⟨out, ho, _⟩ := allocLoop_terminates_bound c prologue front.address
      (calcInstsSz prologue) prologue.length hN
      (fun ω δ e r => (hsub ω prologue (calcInstsSz prologue) δ e r).length_le) halloc
      fuel hfuel d p
    rw [hp] at ho
    exact ⟨finishTrampoline c (front :: rest) front front.address
      (calcInstsSz (front :: rest)) out, by simp only [makeTrampoline, List.head?_cons, ho]⟩

theorem gaveUp_some {Ω : Type} (x : Option (Prep Ω)) (h : gaveUp x = true) :
    ∃ d' p', x = some (Prep.failed d' p') := by
  cases x with
  | none => simp [gaveUp] at h
  | some v =>
    cases v with
    | failed d' p' => exact ⟨d', p', rfl⟩
    | ready _ _ _ _ => simp [gaveUp] at h

/-- All six checks pass exactly when none of the six conditions holds. -/
theorem failedGate_eq_none_iff {Ω : Type} (c : Collab Ω) (d : Detour) (p : Process Ω) :
    failedGate c d p = none ↔
      ¬ ((cbDis c d p).1 = [] ∨ (cbFol c d p).1 = false ∨ (fnDis c d p).1 = [] ∨
        (fnFol c d p).1 = false ∨ (nearest c d p).1 = none ∨ (expanded c d p).1 = false) := by
  simp only [failedGate]
  repeat' split
  all_goals simp_all

/-- When one of the six checks fails and the asserted conditions hold on the way to it,
`hook` gives up. -/
theorem hookPrepare_gaveUp {Ω : Type} (fuel : Nat) (c : Collab Ω) (d : Detour)
    (p : Process Ω) (hg : failedGate c d p ≠ none)
    (hcb : (cbFol c d p).1 = true → (cbFol c d p).2.1 ≠ [])
    (hfn : (fnFol c d p).1 = true → (fnFol c d p).2.1 ≠ [])
    (hr : (nearest c d p).1 ≠ none → getPrefJmpSize ≤ (nearest c d p).2.1) :
    gaveUp (hookPrepare fuel c d p) = true := by
  simp only [failedGate, cbDis, cbFol, fnDis, fnFol, nearest, expanded] at hg hcb hfn hr
  simp only [hookPrepare, push]
  repeat' split
  all_goals first
    | rfl
    | (exfalso; simp_all; done)
    | (exfalso; simp_all; omega)

/-- C3. `hook` fails exactly on the six checks. Assume the collaborators keep what the
code asserts or relies on (a successful `followJmp` leaves a non-empty sequence, a
successful `calcNearestSz` rounds up to at least `getPrefJmpSize`, a successful
`expandProlSelfJmps` leaves a non-empty prologue) and that `makeTrampoline` can terminate
(the prologue has at most 255 instructions, `buildRelocationList` yields sub-lists of it,
allocations are non-null, the fuel is at least 256). Then `hook` returns, and it returns
`false` if and only if the callback disassembly is empty, or `followJmp` fails on it, or
the target disassembly is empty, or `followJmp` fails on it, or `calcNearestSz` returns
none, or `expandProlSelfJmps` returns false. In that case the newest log entry is the
`SEV` message of the first of these checks that fails, in this order, and it is the only
`SEV` entry added. In every other case `hook` returns `true`, whatever `makeTrampoline`
returns. -/
theorem hook_fails_exactly_on_gates {Ω : Type} (fuel : Nat) (c : Collab Ω) (d : Detour)
    (p : Process Ω)
    (hcb : (cbFol c d p).1 = true → (cbFol c d p).2.1 ≠ [])
    (hfn : (fnFol c d p).1 = true → (fnFol c d p).2.1 ≠ [])
    (hr : (nearest c d p).1 ≠ none → getPrefJmpSize ≤ (nearest c d p).2.1)
    (hpro : (expanded c d p).1 = true → (expanded c d p).2.1 ≠ [])
    (hlen : (expanded c d p).2.1.length ≤ 255)
    (hsub : ∀ ω pr sz δ e r, (c.buildRelocationList ω pr sz δ e r).1.Sublist pr)
    (halloc : ∀ ω n, (c.alloc ω n).1 ≠ 0) (hfuel : 256 ≤ fuel) :
    ∃ b d' p', hook fuel c d p = some (b, d', p') ∧
      (b = false ↔
        ((cbDis c d p).1 = [] ∨ (cbFol c d p).1 = false ∨ (fnDis c d p).1 = [] ∨
          (fnFol c d p).1 = false ∨ (nearest c d p).1 = none ∨ (expanded c d p).1 = false)) ∧
      (b = false → ∃ msg rest, failedGate c d p = some msg ∧
        p'.errorLog = (msg, ErrorLevel.SEV) :: rest ∧
        sevCount p'.errorLog = sevCount p.errorLog + 1) := by
  by_cases hgate : failedGate c d p = none
  · have hall := (failedGate_eq_none_iff c d p).1 hgate
    have hall' := hall
    simp only [not_or] at hall'
    obtain ⟨_, h2, _, h4, h5, h6⟩ := hall'
    have h2' : (cbFol c d p).1 = true := by simpa using h2
    have h4' : (fnFol c d p).1 = true := by simpa using h4
    have h6' : (expanded c d p).1 = true := by simpa using h6
    obtain ⟨r, hmk⟩ := makeTrampoline_terminates fuel c (expanded c d p).2.1 (trampDetour c d p)
      (trampProcess c d p) (hpro h6') hlen hsub halloc (by omega)
    have hprep := hookPrepare_of_gates_pass fuel c d p hgate (hcb h2') (hfn h4') (hr h5)
    rw [hmk] at hprep
    refine ⟨true, _, _, (hook_true_iff fuel c d _ p _).2 ⟨_, _, _, _, hprep, rfl⟩, ?_, ?_⟩
    · exact ⟨fun hb => Bool.noConfusion hb, fun hor => absurd hor hall⟩
    · intro hb
      cases hb
  · obtain ⟨d', p', hprep⟩ := gaveUp_some _ (hookPrepare_gaveUp fuel c d p hgate hcb hfn hr)
    have hfail := hookPrepare_failed fuel c d d' p p' hprep
    refine ⟨false, d', p', (hook_false_iff fuel c d d' p p').2 hprep, ?_, ?_⟩
    · refine ⟨fun _ => ?_, fun _ => rfl⟩
      by_contra hnot
      exact hgate ((failedGate_eq_none_iff c d p).2 hnot)
    · intro _
      exact hfail.2.2.2.2.2.2.2

/-- C3, witnessed on the scenario function at `0x1000` with the concrete collaborators. -/
theorem hook_fails_exactly_on_gates_witness :
    (expanded demo (newDetour 0x1000 0x2000) demoProcess).2.1.length ≤ 255 ∧
    ∃ b d' p', hook 256 demo (newDetour 0x1000 0x2000) demoProcess = some (b, d', p') ∧
      (b = false ↔
        ((cbDis demo (newDetour 0x1000 0x2000) demoProcess).1 = [] ∨
          (cbFol demo (newDetour 0x1000 0x2000) demoProcess).1 = false ∨
          (fnDis demo (newDetour 0x1000 0x2000) demoProcess).1 = [] ∨
          (fnFol demo (newDetour 0x1000 0x2000) demoProcess).1 = false ∨
          (nearest demo (newDetour 0x1000 0x2000) demoProcess).1 = none ∨
          (expanded demo (newDetour 0x1000 0x2000) demoProcess).1 = false)) ∧
      (b = false → ∃ msg rest,
        failedGate demo (newDetour 0x1000 0x2000) demoProcess = some msg ∧
        p'.errorLog = (msg, ErrorLevel.SEV) :: rest ∧
        sevCount p'.errorLog = sevCount demoProcess.errorLog + 1) :=
  ⟨by decide,
    hook_fails_exactly_on_gates 256 demo (newDetour 0x1000 0x2000) demoProcess
      (fun _ => by decide) (fun _ => by decide) (fun _ => by decide) (fun _ => by decide)
      (by decide) demo_sublist demo_alloc_ne (by decide)⟩

/-! ## Layout of the trampoline -/

/-- Without wrap-around the `i`-th jump-table entry is `6 * i` bytes above the first and
its holder `8 * (i + 1)` bytes below the value `cap0` the lambda's `static` starts from. -/
theorem holderCalls_getElem (H : Nat) :
    ∀ (es : insts_t) (cur : Nat) (cap : Option Nat) (cap0 i : Nat) (cl : MinJmpCall),
      cap.getD H = cap0 → 8 * es.length ≤ cap0 → cap0 < 2 ^ 64 →
      cur + 6 * es.length < 2 ^ 64 →
      (holderCalls H getMinJmpSize es cur cap)[i]? = some cl →
      cl.address = cur + 6 * i ∧ cl.destHolder = cap0 - 8 * (i + 1) := by
  intro es
  induction es with
  | nil => intro cur cap cap0 i cl _ _ _ _ h; simp [holderCalls] at h
  | cons inst rest ih =>
    intro cur cap cap0 i cl hcap h8 hlt hcur h
    simp only [List.length_cons] at h8 hcur
    have hm0 : ∀ o : Option Nat, (match o with | none => H | some a => a) = o.getD H :=
      fun o => by cases o <;> rfl
    have hs : sub64 cap0 destHldrSz = cap0 - 8 :=
      sub64_of_le (by simp only [destHldrSz]; omega) hlt
    simp only [holderCalls, hm0, hcap, hs] at h
    cases i with
    | zero =>
      simp only [List.getElem?_cons_zero, Option.some.injEq] at h
      subst h
      exact ⟨by simp, by simp⟩
    | succ j =>
      simp only [List.getElem?_cons_succ] at h
      have hu : u64 (cur + getMinJmpSize) = cur + 6 :=
        u64_of_lt (by simp only [getMinJmpSize]; omega)
      rw [hu] at h
      obtain ⟨ha, hh⟩ := ih (cur + 6) (some (cap0 - 8)) (cap0 - 8) j cl rfl (by omega)
        (by omega) (by omega) h
      exact ⟨by omega, by omega⟩

/-- Byte ranges at the addresses the code computes are pairwise disjoint and lie inside
the trampoline as soon as the trampoline has room for them. -/
theorem trampolineRegions_disjoint (T prolSz S k : Nat) (calls : List MinJmpCall)
    (hlen : calls.length = k + 1)
    (hb : ∀ i cl, calls[i]? = some cl →
      cl.address = T + prolSz + 6 * i ∧ cl.destHolder = T + S - 8 * (i + 1))
    (hS : prolSz + 6 * (k + 1) + 8 * (k + 1) ≤ S) :
    (trampolineRegions T prolSz calls).Pairwise Disj ∧
    ∀ r ∈ trampolineRegions T prolSz calls, T ≤ r.1 ∧ r.1 + r.2 ≤ T + S := by
  have hidx : ∀ cl ∈ calls, ∃ i, i < k + 1 ∧
      cl.address = T + prolSz + 6 * i ∧ cl.destHolder = T + S - 8 * (i + 1) := by
    intro cl hcl
    obtain ⟨i, hi⟩ := List.mem_iff_getElem?.1 hcl
    have hlt : i < calls.length := by
      obtain ⟨h, _⟩ := List.getElem?_eq_some.1 hi
      exact h
    exact ⟨i, by omega, hb i cl hi⟩
  have hpair : calls.Pairwise (fun a b =>
      a.address + 6 ≤ b.address ∧ b.destHolder + 8 ≤ a.destHolder) := by
    rw [List.pairwise_iff_getElem]
    intro i j hi hj hij
    obtain ⟨h1, h2⟩ := hb i calls[i] (List.getElem?_eq_getElem hi)
    obtain ⟨h3, h4⟩ := hb j calls[j] (List.getElem?_eq_getElem hj)
    constructor <;> omega
  constructor
  · simp only [trampolineRegions, List.pairwise_cons, List.pairwise_append, List.pairwise_map,
      List.mem_append, List.mem_map]
    refine ⟨?_, ?_, ?_, ?_⟩
    · rintro r (⟨cl, hcl, rfl⟩ | ⟨cl, hcl, rfl⟩)
      · obtain ⟨i, hi, h1, h2⟩ := hidx cl hcl
        left
        show T + prolSz ≤ cl.address
        omega
      · obtain ⟨i, hi, h1, h2⟩ := hidx cl hcl
        left
        show T + prolSz ≤ cl.destHolder
        omega
    · refine hpair.imp ?_
      intro a b hab
      left
      simp only [getMinJmpSize]
      exact hab.1
    · refine hpair.imp ?_
      intro a b hab
      right
      simp only [destHldrSz]
      exact hab.2
    · rintro r ⟨a, ha, rfl⟩ r' ⟨b, hb', rfl⟩
      obtain ⟨i, hi, h1, h2⟩ := hidx a ha
      obtain ⟨j, hj, h3, h4⟩ := hidx b hb'
      left
      simp only [getMinJmpSize]
      omega
  · intro r hr
    simp only [trampolineRegions, List.mem_cons, List.mem_append, List.mem_map] at hr
    rcases hr with rfl | ⟨cl, hcl, rfl⟩ | ⟨cl, hcl, rfl⟩
    · simp only
      omega
    · obtain ⟨i, hi, h1, h2⟩ := hidx cl hcl
      simp only [getMinJmpSize]
      omega
    · obtain ⟨i, hi, h1, h2⟩ := hidx cl hcl
      simp only [destHldrSz]
      omega

/-- C10. Trampoline size and layout fit. When `makeTrampoline` returns, its allocation
loop has exited with a guessed entry count `n` (a `uint8_t`) and `k` instructions needing
a jump-table entry with `k ≤ n`, and for `prolSz ≤ 100` the size is
`m_trampolineSz = prolSz + 14 + 14 * n` without wrap-around. Consequently, in the first
`makeTrampoline` call of a process (the lambda's `static` not yet initialised) and with
the block lying below `2^64`, the `k + 1` calls of `makex64MinimumJump` it makes are, in
order, at `m_trampoline + prolSz + 6 * i` with holder `m_trampoline + m_trampolineSz -
8 * (i + 1)` (`i = 0` is the jump back), and the relocated prologue, the `k + 1` six-byte
jumps and the `k + 1` eight-byte holders are pairwise disjoint and lie inside
`[m_trampoline, m_trampoline + m_trampolineSz)`. -/
theorem trampoline_layout {Ω : Type} (fuel : Nat) (c : Collab Ω) (prologue : insts_t)
    (d : Detour) (p : Process Ω) (r : Option insts_t × Detour × Process Ω)
    (h : makeTrampoline fuel c prologue d p = some r) (hfirst : p.captureAddr = none)
    (hprol : calcInstsSz prologue ≤ 100)
    (hfit : r.2.1.m_trampoline + r.2.1.m_trampolineSz < 2 ^ 64) :
    ∃ front out calls,
      prologue.head? = some front ∧
      allocLoop c prologue front.address (calcInstsSz prologue) fuel 0 5 [] [] d p = some out ∧
      out.instsNeedingEntry.length ≤ out.neededEntryCount ∧ out.neededEntryCount ≤ 255 ∧
      r.2.1.m_trampolineSz = calcInstsSz prologue + 14 + 14 * out.neededEntryCount ∧
      r.2.2.minJmpLog = calls.reverse ++ p.minJmpLog ∧
      calls.length = out.instsNeedingEntry.length + 1 ∧
      (∀ i cl, calls[i]? = some cl →
        cl.address = r.2.1.m_trampoline + calcInstsSz prologue + 6 * i ∧
        cl.destHolder = r.2.1.m_trampoline + r.2.1.m_trampolineSz - 8 * (i + 1)) ∧
      (trampolineRegions r.2.1.m_trampoline (calcInstsSz prologue) calls).Pairwise Disj ∧
      ∀ g ∈ trampolineRegions r.2.1.m_trampoline (calcInstsSz prologue) calls,
        r.2.1.m_trampoline ≤ g.1 ∧ g.1 + g.2 ≤ r.2.1.m_trampoline + r.2.1.m_trampolineSz := by
  obtain ⟨front, out, hfront, ho, rfl⟩ := makeTrampoline_some fuel c prologue d p r h
  obtain ⟨hk, hn, hsz⟩ := allocLoop_exit c prologue _ _ _ _ _ _ _ _ _ _ (by omega) ho
  have hfr := allocLoop_frame c prologue _ _ _ _ _ _ _ _ _ _ ho
  have hcapt : out.p.captureAddr = none := by rw [hfr.2.2.2.2.2.2.2.2.2, hfirst]
  have hjl : out.p.minJmpLog = p.minJmpLog := hfr.2.2.2.2.2.2.2.2.1
  rw [u16_of_lt (by omega)] at hsz
  rw [finishTrampoline_detour] at hfit ⊢
  rw [finishTrampoline_log, hjl, hcapt]
  generalize hT : out.d.m_trampoline = T at *
  generalize hSz : out.d.m_trampolineSz = S at *
  generalize hP : calcInstsSz prologue = P at *
  have hH : sub64 (u64 (T + S)) destHldrSz = T + S - 8 := by
    rw [u64_of_lt hfit]
    exact sub64_of_le (by simp only [destHldrSz]; omega) hfit
  have hJ : u64 (T + P) = T + P := u64_of_lt (by omega)
  have hC : u64 (T + P + getMinJmpSize) = T + P + 6 :=
    u64_of_lt (by simp only [getMinJmpSize]; omega)
  rw [hH, hJ, hC]
  have hb : ∀ i cl,
      (⟨T + P, u64 (front.address + P), T + S - 8⟩
        :: holderCalls (T + S - 8) getMinJmpSize out.instsNeedingEntry (T + P + 6) none)[i]? = some cl →
      cl.address = T + P + 6 * i ∧ cl.destHolder = T + S - 8 * (i + 1) := by
    intro i cl hi
    cases i with
    | zero =>
      simp only [List.getElem?_cons_zero, Option.some.injEq] at hi
      subst hi
      exact ⟨by simp, by simp⟩
    | succ j =>
      simp only [List.getElem?_cons_succ] at hi
      obtain ⟨ha, hh⟩ := holderCalls_getElem (T + S - 8) out.instsNeedingEntry (T + P + 6) none (T + S - 8) j cl
        rfl (by omega) (by omega) (by omega) hi
      exact ⟨by omega, by omega⟩
  have hlen : (⟨T + P, u64 (front.address + P), T + S - 8⟩
      :: holderCalls (T + S - 8) getMinJmpSize out.instsNeedingEntry (T + P + 6) none : List MinJmpCall).length
      = out.instsNeedingEntry.length + 1 := by
    simp [holderCalls_length]
  obtain ⟨hd1, hd2⟩ := trampolineRegions_disjoint T P S out.instsNeedingEntry.length _ hlen hb (by omega)
  exact ⟨front, out, _, hfront, ho, hk, hn, hsz,
    by simp, hlen, hb, hd1, hd2⟩

/-- C10, witnessed on the function at `0x3000` in the fresh process. -/
theorem trampoline_layout_witness :
    (makeTrampoline 8 demo demoBranchFnA (newDetour 0x3000 0x2000) demoProcess = some demoTramp
      ∧ demoProcess.captureAddr = none ∧ calcInstsSz demoBranchFnA ≤ 100
      ∧ demoTramp.2.1.m_trampoline + demoTramp.2.1.m_trampolineSz < 2 ^ 64) ∧
    ∃ front out calls,
      demoBranchFnA.head? = some front ∧
      allocLoop demo demoBranchFnA front.address (calcInstsSz demoBranchFnA) 8 0 5 [] []
        (newDetour 0x3000 0x2000) demoProcess = some out ∧
      out.instsNeedingEntry.length ≤ out.neededEntryCount ∧ out.neededEntryCount ≤ 255 ∧
      demoTramp.2.1.m_trampolineSz
        = calcInstsSz demoBranchFnA + 14 + 14 * out.neededEntryCount ∧
      demoTramp.2.2.minJmpLog = calls.reverse ++ demoProcess.minJmpLog ∧
      calls.length = out.instsNeedingEntry.length + 1 ∧
      (∀ i cl, calls[i]? = some cl →
        cl.address = demoTramp.2.1.m_trampoline + calcInstsSz demoBranchFnA + 6 * i ∧
        cl.destHolder
          = demoTramp.2.1.m_trampoline + demoTramp.2.1.m_trampolineSz - 8 * (i + 1)) ∧
      (trampolineRegions demoTramp.2.1.m_trampoline (calcInstsSz demoBranchFnA)
        calls).Pairwise Disj ∧
      ∀ g ∈ trampolineRegions demoTramp.2.1.m_trampoline (calcInstsSz demoBranchFnA) calls,
        demoTramp.2.1.m_trampoline ≤ g.1 ∧
        g.1 + g.2 ≤ demoTramp.2.1.m_trampoline + demoTramp.2.1.m_trampolineSz :=
  ⟨⟨by rfl, by rfl, by decide, by decide⟩,
    trampoline_layout 8 demo demoBranchFnA (newDetour 0x3000 0x2000) demoProcess demoTramp
      (by rfl) (by rfl) (by decide) (by decide)⟩

/-! ## Two hooks in one process -/

/-- C8 fails on a second hook. After a first hook whose trampoline (at `0x100000`, 100
bytes) needed one jump-table entry, a second hook by a new detour object gets its
trampoline at `0x101000` (100 bytes); the jump-back holder is at the tail of this
trampoline, but the holder handed to `makex64MinimumJump` for its first jump-table entry
is `0x10004C`, one slot below the last holder of the first trampoline and inside the first
trampoline, not `m_trampoline + m_trampolineSz - 16` of the second. -/
theorem second_hook_holder_misplaced :
    hook 8 demo (newDetour 0x3000 0x2000) demoProcess
      = some (true, demoFirst.2.1, demoFirst.2.2) ∧
    hook 8 demo (newDetour 0x4000 0x2000) demoFirst.2.2
      = some (true, demoSecond.2.1, demoSecond.2.2) ∧
    (demoFirst.2.1.m_trampoline = 0x100000 ∧ demoFirst.2.1.m_trampolineSz = 100) ∧
    (demoSecond.2.1.m_trampoline = 0x101000 ∧ demoSecond.2.1.m_trampolineSz = 100) ∧
    demoSecond.2.2.minJmpLog.map MinJmpCall.destHolder
      = [0x10004C, 0x10105C, 0x100054, 0x10005C] ∧
    (0x10004C : Nat) ≠ demoSecond.2.1.m_trampoline + demoSecond.2.1.m_trampolineSz - 8 * 2 ∧
    (demoFirst.2.1.m_trampoline ≤ 0x10004C ∧
      0x10004C + 8 ≤ demoFirst.2.1.m_trampoline + demoFirst.2.1.m_trampolineSz) := by
  refine ⟨by rfl, by rfl, ⟨by rfl, by rfl⟩, ⟨by rfl, by rfl⟩, by rfl, by decide, by decide,
    by decide⟩

/-! ## The 20-byte scenario -/

/-- The memory `hookPatch` leaves: the preferred jump, then `R - 16` bytes of `0x90` from
offset 16 on. -/
theorem hookPatch_mem {Ω : Type} (c : Collab Ω) (R : Nat) (d : Detour) (p : Process Ω)
    (h16 : 16 ≤ R) (h255 : R - 16 ≤ 255) (hfit : d.m_fnAddress + R < 2 ^ 64) :
    (hookPatch c R d p).2.mem = memset (d.m_fnAddress + 16) 0x90 (R - 16)
      (c.writeEncoding (c.makex64PreferredJump d.m_fnAddress d.m_fnCallback) p.mem) := by
  simp only [hookPatch, protect, getPrefJmpSize]
  rw [u64_of_lt (by omega), sub64_of_le h16 (by omega), u8_of_lt (by omega)]

/-- C5 as stated fails: on the scenario function (20 bytes at `0x1000`, four instructions
of 5 bytes, no jumps) `hook` succeeds, but it asks `calcNearestSz` for the preferred size
16, not the minimum size 6: all four instructions are selected with rounded size 20 (with
6 the same `calcNearestSz` selects the first two, size 10), and the byte at offset 16,
`0xCC` before, is `0x90` after: the bytes at offsets 10..19 are not untouched. -/
theorem scenario_min_size_counterexample :
    hook 8 demo (newDetour 0x1000 0x2000) demoProcess = some (true, demoOut.2.1, demoOut.2.2) ∧
    calcNearestSzSpec getMinJmpSize demoPlainFn 0 = some (demoPlainFn.take 2, 10) ∧
    (nearest demo (newDetour 0x1000 0x2000) demoProcess).1 = some demoPlainFn ∧
    (nearest demo (newDetour 0x1000 0x2000) demoProcess).2.1 = 20 ∧
    demoOut.2.1.m_originalInsts = demoPlainFn ∧
    demoProcess.mem (0x1000 + 16) = 0xCC ∧ demoOut.2.2.mem (0x1000 + 16) = 0x90 ∧
    ¬ ((nearest demo (newDetour 0x1000 0x2000) demoProcess).1 = some (demoPlainFn.take 2) ∧
        (nearest demo (newDetour 0x1000 0x2000) demoProcess).2.1 = 10 ∧
        ∀ a, 0x1000 + 10 ≤ a → a < 0x1000 + 20 → demoOut.2.2.mem a = demoProcess.mem a) := by
  refine ⟨by rfl, by rfl, by rfl, by rfl, by rfl, by rfl, by rfl, ?_⟩
  rintro ⟨_, h10, _⟩
  exact absurd h10 (by decide)

/-- C5, amended. For a target whose resolved instructions are four instructions of 5
bytes (the callback and the target resolve, `calcNearestSz` follows its spec contract,
no prologue has self-jumps, `makeTrampoline` can terminate, the function lies below
`2^64` and the preferred jump's encoding takes at most 16 bytes): `hook` asks for the
preferred redirect size 16, `calcNearestSz` selects all four instructions (rounded size
20), `hook` succeeds, the bytes at offsets 0..15 are those of the jump, the bytes at
offsets 16..19 are `0x90`, and no byte at offset 20 or beyond is changed by the patch. -/
theorem scenario_preferred_size {Ω : Type} (fuel : Nat) (c : Collab Ω) (d : Detour)
    (p : Process Ω) (i1 i2 i3 i4 : Instruction)
    (hs1 : i1.size = 5) (hs2 : i2.size = 5) (hs3 : i3.size = 5) (hs4 : i4.size = 5)
    (hcbd : (cbDis c d p).1 ≠ []) (hcbf : (cbFol c d p).1 = true)
    (hcbn : (cbFol c d p).2.1 ≠ [])
    (hfnd : (fnDis c d p).1 ≠ []) (hfnf : (fnFol c d p).1 = true)
    (hinsts : (fnFol c d p).2.1 = [i1, i2, i3, i4])
    (hnear : c.calcNearestSz = calcNearestSzModel)
    (hexp : ∀ ω pro is m r, c.expandProlSelfJmps ω pro is m r = (true, pro, r, ω))
    (hsub : ∀ ω pr sz δ e r, (c.buildRelocationList ω pr sz δ e r).1.Sublist pr)
    (halloc : ∀ ω n, (c.alloc ω n).1 ≠ 0) (hfuel : 5 ≤ fuel)
    (hfit : i1.address + 20 < 2 ^ 64)
    (hjmp : ∀ addr dest m a, addr + 16 ≤ a →
      c.writeEncoding (c.makex64PreferredJump addr dest) m a = m a) :
    (nearest c d p).1 = some [i1, i2, i3, i4] ∧ (nearest c d p).2.1 = 20 ∧
    ∃ d' p' d1 p1, hook fuel c d p = some (true, d', p') ∧
      hookPrepare fuel c d p = some (Prep.ready [i1, i2, i3, i4] 20 d1 p1) ∧
      d'.m_fnAddress = i1.address ∧ d'.m_originalInsts = [i1, i2, i3, i4] ∧
      (∀ a, a < i1.address + 16 → p'.mem a
        = c.writeEncoding (c.makex64PreferredJump i1.address d'.m_fnCallback) p1.mem a) ∧
      (∀ a, i1.address + 16 ≤ a → a < i1.address + 20 → p'.mem a = 0x90) ∧
      (∀ a, i1.address + 20 ≤ a → p'.mem a = p1.mem a) := by
  have hnr : nearest c d p = (some [i1, i2, i3, i4], 20, (fnFol c d p).2.2) := by
    simp [nearest, hnear, hinsts, calcNearestSzModel, calcNearestSzSpec, hs1, hs2, hs3, hs4,
      getPrefJmpSize]
  have hex : expanded c d p = (true, [i1, i2, i3, i4], 20, (fnFol c d p).2.2) := by
    simp [expanded, hexp, hnr]
  have hgate : failedGate c d p = none := by
    rw [failedGate_eq_none_iff]
    simp [hcbd, hcbf, hfnd, hfnf, hnr, hex]
  obtain ⟨r, hmk⟩ := makeTrampoline_terminates fuel c (expanded c d p).2.1 (trampDetour c d p)
    (trampProcess c d p) (by simp [hex]) (by simp [hex]) hsub halloc
    (by simp only [hex, List.length_cons, List.length_nil]; omega)
  have hprep := hookPrepare_of_gates_pass fuel c d p hgate hcbn (by simp [hinsts])
    (by simp [hnr, getPrefJmpSize])
  rw [hmk] at hprep
  simp only [Option.map_some', hex] at hprep
  have hfr := makeTrampoline_frame fuel c _ _ _ r hmk
  have hfa : r.2.1.m_fnAddress = i1.address := by
    rw [hfr.1]; simp [trampDetour, hinsts]
  have hoi : r.2.1.m_originalInsts = [i1, i2, i3, i4] := by
    rw [hfr.2.2.1]; simp [trampDetour, hex]
  have hmem : (hookPatch c 20 { r.2.1 with userTrampVar := r.2.1.m_trampoline }
      (logTrampoline c r.1 r.2.1 r.2.2)).2.mem
      = memset (i1.address + 16) 0x90 (20 - 16)
        (c.writeEncoding (c.makex64PreferredJump i1.address r.2.1.m_fnCallback)
          (logTrampoline c r.1 r.2.1 r.2.2).mem) := by
    rw [hookPatch_mem c 20 { r.2.1 with userTrampVar := r.2.1.m_trampoline }
      (logTrampoline c r.1 r.2.1 r.2.2) (by omega) (by omega) (by simp only [hfa]; exact hfit)]
    dsimp only
    rw [hfa]
  dsimp only at hmem
  refine ⟨by rw [hnr], by rw [hnr],
    (hookPatch c 20 { r.2.1 with userTrampVar := r.2.1.m_trampoline }
      (logTrampoline c r.1 r.2.1 r.2.2)).1,
    (hookPatch c 20 { r.2.1 with userTrampVar := r.2.1.m_trampoline }
      (logTrampoline c r.1 r.2.1 r.2.2)).2, _, _,
    (hook_true_iff fuel c d _ p _).2 ⟨_, _, _, _, hprep, rfl⟩, hprep, ?_, ?_, ?_, ?_, ?_⟩
  · simpa [hookPatch] using hfa
  · simpa [hookPatch] using hoi
  · intro a ha
    dsimp only
    rw [hmem, memset_outside _ _ _ _ _ (Or.inl ha)]
    simp [hookPatch]
  · intro a h1 h2
    dsimp only
    rw [hmem]
    exact memset_inside _ _ _ _ _ h1 (by omega)
  · intro a ha
    dsimp only
    rw [hmem, memset_outside _ _ _ _ _ (Or.inr (by omega))]
    exact hjmp _ _ _ _ (by omega)

/-- C5 amended, witnessed on the scenario function at `0x1000` with the concrete
collaborators. -/
theorem scenario_preferred_size_witness :
    ((fnFol demo (newDetour 0x1000 0x2000) demoProcess).2.1 = demoPlainFn
      ∧ demo.calcNearestSz = calcNearestSzModel) ∧
    ((nearest demo (newDetour 0x1000 0x2000) demoProcess).1 = some demoPlainFn ∧
      (nearest demo (newDetour 0x1000 0x2000) demoProcess).2.1 = 20 ∧
      ∃ d' p' d1 p1, hook 8 demo (newDetour 0x1000 0x2000) demoProcess = some (true, d', p') ∧
        hookPrepare 8 demo (newDetour 0x1000 0x2000) demoProcess
          = some (Prep.ready demoPlainFn 20 d1 p1) ∧
        d'.m_fnAddress = (plainInst 0x1000 5).address ∧ d'.m_originalInsts = demoPlainFn ∧
        (∀ a, a < (plainInst 0x1000 5).address + 16 → p'.mem a
          = demo.writeEncoding
            (demo.makex64PreferredJump (plainInst 0x1000 5).address d'.m_fnCallback) p1.mem a) ∧
        (∀ a, (plainInst 0x1000 5).address + 16 ≤ a → a < (plainInst 0x1000 5).address + 20
          → p'.mem a = 0x90) ∧
        (∀ a, (plainInst 0x1000 5).address + 20 ≤ a → p'.mem a = p1.mem a)) :=
  ⟨⟨by rfl, by rfl⟩,
    scenario_preferred_size 8 demo (newDetour 0x1000 0x2000) demoProcess
      (plainInst 0x1000 5) (plainInst 0x1005 5) (plainInst 0x100A 5) (plainInst 0x100F 5)
      (by rfl) (by rfl) (by rfl) (by rfl) (by decide) (by rfl) (by decide) (by decide) (by rfl)
      (by rfl) (by rfl) (fun _ _ _ _ _ => rfl) demo_sublist demo_alloc_ne (by decide)
      (by decide) demo_jump_frame⟩

end PLH
